import Mathlib

/-!
Verification of the dips-ojos web application: a shallow embedding of the Go
backend's CSV loaders (backend/models/transit.go, backend/models/classification.go),
its transit lookup and classification handlers (backend/handlers/classifications.go),
and the SQLite schema constraints (backend/db/migrations), together with models,
written from the specification, of the Python plotter components whose source is
not part of the backend tree (the Transit Segmenter and the Model Fitter).

Numeric columns are float64 in Go and REAL in SQLite; they are embedded as exact
rationals, with the decimal forms of strconv.ParseFloat mapped to their exact
rational values (binary rounding is not modelled; no claim below depends on it).
AUTOINCREMENT id columns of the Transits and Classifications tables are omitted:
no claim mentions them and no query in scope filters on them.
-/

namespace DipsOjos

/-! ## Models of Go strconv parsing (decimal forms) -/

/-- Value of a list of decimal digit characters, most significant first. -/
def digitsVal (cs : List Char) : Nat :=
  cs.foldl (fun acc c => 10 * acc + (c.toNat - 48)) 0

/-- Signed decimal integer from a character list; model of Go strconv.Atoi
(underscore separators and overflow are not modelled). -/
def intOfChars : List Char → Option Int
  | [] => none
  | '+' :: cs =>
      if cs = [] ∨ ¬ cs.all Char.isDigit then none else some (digitsVal cs)
  | '-' :: cs =>
      if cs = [] ∨ ¬ cs.all Char.isDigit then none else some (-(digitsVal cs : Int))
  | cs => if cs.all Char.isDigit then some ((digitsVal cs : Nat) : Int) else none

/-- Model of Go strconv.Atoi. -/
def atoi (s : String) : Option Int := intOfChars s.data

/-- Unsigned mantissa of a decimal float: digits, optionally a dot and more
digits, with at least one digit overall. Returns its exact rational value and
the unconsumed rest of the input. -/
def parseMantissa (cs : List Char) : Option (ℚ × List Char) :=
  let ip := cs.takeWhile Char.isDigit
  let rest := cs.dropWhile Char.isDigit
  match rest with
  | '.' :: rest2 =>
      let fp := rest2.takeWhile Char.isDigit
      let rest3 := rest2.dropWhile Char.isDigit
      if ip.isEmpty && fp.isEmpty then none
      else some (((digitsVal ip : ℚ) + (digitsVal fp : ℚ) / (10 : ℚ) ^ fp.length), rest3)
  | _ => if ip.isEmpty then none else some ((digitsVal ip : ℚ), rest)

/-- Model of Go strconv.ParseFloat on plain decimal strings: optional sign,
digits with optional fraction, optional decimal exponent. The special forms
Inf/NaN, hexadecimal floats and underscore separators are not modelled; the
result is the exact rational value of the decimal literal. -/
def parseFloat (s : String) : Option ℚ :=
  let signed : Bool × List Char :=
    match s.data with
    | '+' :: cs => (false, cs)
    | '-' :: cs => (true, cs)
    | cs => (false, cs)
  match parseMantissa signed.2 with
  | none => none
  | some (m, rest) =>
      let ev : Option ℚ :=
        match rest with
        | [] => some m
        | 'e' :: es => (intOfChars es).map (fun e => m * (10 : ℚ) ^ e)
        | 'E' :: es => (intOfChars es).map (fun e => m * (10 : ℚ) ^ e)
        | _ => none
      ev.map (fun q => if signed.1 then -q else q)

/-- Nullable float column (transit.go lines 105-125): the pointer is set only
when ParseFloat succeeded and the cell is nonempty, otherwise it stays nil. -/
def parseOptFloat (s : String) : Option ℚ :=
  match parseFloat s with
  | some v => if s = "" then none else some v
  | none => none

/-- Non-nullable float column: the Go zero value 0 is kept when parsing fails. -/
def parseReqFloat (s : String) : ℚ := (parseFloat s).getD 0

/-- Non-nullable int column: the Go zero value 0 is kept when parsing fails. -/
def parseReqInt (s : String) : Int := (atoi s).getD 0

/-- Nullable int column (classification.go line 494): set only when Atoi
succeeded and the cell is nonempty. -/
def parseOptInt (s : String) : Option Int :=
  match atoi s with
  | some v => if s = "" then none else some v
  | none => none

/-! ## Data model: rows of the SQLite tables -/

/-- One record of an encoding/csv file: the list of its cell strings. -/
abbrev Record := List String

/-- Cell access; in the Go code indexing only happens after a record-length
guard, under which this agrees with Go slice indexing. -/
def cell (r : Record) (i : Nat) : String := r.getD i ""

/-- Row of the Transits table (migration 004 lines 126-144; Go struct Transit
in transit.go lines 13-30, whose File field is join-derived, not stored). -/
structure Transit where
  curveId : Int
  transitIndex : Int
  t0Expected : ℚ
  t0Fitted : Option ℚ
  ttvMinutes : Option ℚ
  rpFitted : ℚ
  aFitted : ℚ
  rmsResiduals : Option ℚ
  period : ℚ
  duration : Option ℚ
  inc : ℚ
  u1 : ℚ
  u2 : ℚ
  plotFile : String
  deriving Repr, DecidableEq

/-- Row of the Curves table (migration 004 lines 10-41, filepath dropped by
migration 005; ground-truth and extra orbital columns stay NULL because the
loader never writes them, so they are omitted here). -/
structure Curve where
  id : Int
  filename : String
  timeMin : Option ℚ
  timeMax : Option ℚ
  numExpectedTransits : Option Int
  foundTransits : Int
  dataType : Option String
  periodDays : Option ℚ
  epochBJD : Option ℚ
  durationDays : Option ℚ
  planetRadius : Option ℚ
  semiMajorAxis : Option ℚ
  inclinationDeg : Option ℚ
  u1 : Option ℚ
  u2 : Option ℚ
  deriving Repr, DecidableEq

/-- Row of the Classifications table (migration 004 lines 79-99). The DATETIME
timestamp column is modelled as an abstract clock tick. -/
structure Classification where
  curveId : Int
  transitIndex : Int
  userId : Int
  tExpectedBJD : Option ℚ
  tObservedBJD : Option ℚ
  ttvMinutes : Option ℚ
  leftAsymmetry : Bool
  rightAsymmetry : Bool
  increasedFlux : Bool
  decreasedFlux : Bool
  normalTransit : Bool
  anomalousMorphology : Bool
  markedTDV : Bool
  notes : String
  timestamp : Nat
  deriving Repr, DecidableEq

/-- Go struct ClassificationInput (classification.go lines 28-40): the JSON
body of POST classify, without key or timestamp fields. -/
structure ClassificationInput where
  tExpectedBJD : Option ℚ
  tObservedBJD : Option ℚ
  ttvMinutes : Option ℚ
  leftAsymmetry : Bool
  rightAsymmetry : Bool
  increasedFlux : Bool
  decreasedFlux : Bool
  normalTransit : Bool
  anomalousMorphology : Bool
  markedTDV : Bool
  notes : String
  deriving Repr, DecidableEq

/-- The relational store: the three tables plus the set of user ids (only
their ids matter to the foreign-key checks in scope). -/
structure DBState where
  curves : List Curve
  users : List Int
  transits : List Transit
  classifications : List Classification
  deriving Repr, DecidableEq

/-! ## LoadTransitsFromCSV (transit.go lines 32-162) -/

/-- Two Transits rows collide on the UNIQUE (curve_id, transit_index) key. -/
def sameTransitKey (a b : Transit) : Bool :=
  a.curveId == b.curveId && a.transitIndex == b.transitIndex

/-- INSERT INTO Transits, subject to the schema constraint
UNIQUE (curve_id, transit_index) (migration 004 line 143): the insert fails,
returning none, when a stored row already has the same key. -/
def insertTransit (ts : List Transit) (t : Transit) : Option (List Transit) :=
  if ts.any (fun u => sameTransitKey u t) then none else some (ts ++ [t])

/-- The Go map from curve filename to curve id (transit.go lines 61-76).
Entries are prepended so that List.lookup, which returns the first match,
realizes the overwrite semantics of Go map assignment. -/
def curveMap (curves : List Curve) : List (String × Int) :=
  curves.foldl (fun m c => (c.filename, c.id) :: m) []

/-- Field-by-field parse of one per-transit CSV record into a Transits row
(transit.go lines 95-135), given the curve id resolved from record[0]. -/
def parseTransitRecord (curveID : Int) (r : Record) : Transit :=
  { curveId := curveID
    transitIndex := parseReqInt (cell r 1)
    t0Expected := parseReqFloat (cell r 2)
    t0Fitted := parseOptFloat (cell r 3)
    ttvMinutes := parseOptFloat (cell r 4)
    rpFitted := parseReqFloat (cell r 5)
    aFitted := parseReqFloat (cell r 6)
    rmsResiduals := parseOptFloat (cell r 7)
    period := parseReqFloat (cell r 8)
    duration := parseOptFloat (cell r 9)
    inc := parseReqFloat (cell r 10)
    u1 := parseReqFloat (cell r 11)
    u2 := parseReqFloat (cell r 12)
    plotFile := cell r 13 }

/-- State of the record loop in LoadTransitsFromCSV: the rows inserted so far
and the per-curve counter map transitCounts (counts is 0 exactly at the ids
absent from the Go map). -/
structure LoadState where
  transits : List Transit
  counts : Int → Nat

/-- Body of the record loop (transit.go lines 83-150): skip records of fewer
than 14 fields, skip filenames with no curve, insert and count otherwise; a
failed insert (UNIQUE violation) is logged and skipped without counting. -/
def processTransitRecord (cmap : List (String × Int)) (st : LoadState) (r : Record) :
    LoadState :=
  if r.length < 14 then st
  else
    match cmap.lookup (cell r 0) with
    | none => st
    | some curveID =>
        match insertTransit st.transits (parseTransitRecord curveID r) with
        | none => st
        | some ts =>
            { transits := ts
              counts := fun i => if i = curveID then st.counts i + 1 else st.counts i }

/-- DELETE FROM Transits followed by UPDATE Curves SET found_transits = 0
(transit.go lines 49-59), restricted to the curves table: every curve is
reset to zero found transits. -/
def resetFound (curves : List Curve) : List Curve :=
  curves.map (fun c => { c with foundTransits := 0 })

/-- The record loop of LoadTransitsFromCSV over the data records. -/
def loadState (cmap : List (String × Int)) (records : List Record) : LoadState :=
  records.foldl (processTransitRecord cmap) { transits := [], counts := fun _ => 0 }

/-- The final UPDATE of found_transits per counted curve (transit.go lines
152-158): ids in the counter map (count nonzero) receive their count, the
others keep the reset value. -/
def applyCounts (counts : Int → Nat) (curves : List Curve) : List Curve :=
  curves.map (fun c =>
    if counts c.id ≠ 0 then { c with foundTransits := (counts c.id : Int) } else c)

/-- LoadTransitsFromCSV (transit.go lines 32-162): fails only when the CSV has
fewer than two records; otherwise deletes all Transits rows, resets every
found_transits to 0, builds the filename map, loads the data records
(records[1:]), and finally writes found_transits for each counted curve. -/
def loadTransitsFromCSV (db : DBState) (records : List Record) : Except String DBState :=
  if records.length < 2 then .error "CSV has no data rows"
  else
    .ok { db with
      curves := applyCounts
        (loadState (curveMap (resetFound db.curves)) (records.drop 1)).counts
        (resetFound db.curves)
      transits := (loadState (curveMap (resetFound db.curves)) (records.drop 1)).transits }

/-- GetTransit (transit.go lines 219-234): first row of the join of Transits
with Curves on curve_id, filtered by curve filename and transit_index. The
join-derived File field of the Go struct is the filename argument itself and
is not modelled. -/
def getTransit (db : DBState) (filename : String) (index : Int) : Option Transit :=
  db.transits.find? (fun t =>
    t.transitIndex == index &&
      db.curves.any (fun c => c.id == t.curveId && c.filename == filename))

/-! ## Classifications (classification.go lines 42-100, handlers/classifications.go) -/

/-- A Classifications row matches the UNIQUE (curve_id, transit_index, user_id)
key (migration 004 line 98). -/
def classKeyIs (curveID transitIndex userID : Int) (c : Classification) : Bool :=
  c.curveId == curveID && c.transitIndex == transitIndex && c.userId == userID

/-- Fresh Classifications row built from an input (the INSERT arm of the
upsert in classification.go lines 74-100), timestamped with the current tick. -/
def mkClassification (curveID transitIndex userID : Int) (input : ClassificationInput)
    (now : Nat) : Classification :=
  { curveId := curveID
    transitIndex := transitIndex
    userId := userID
    tExpectedBJD := input.tExpectedBJD
    tObservedBJD := input.tObservedBJD
    ttvMinutes := input.ttvMinutes
    leftAsymmetry := input.leftAsymmetry
    rightAsymmetry := input.rightAsymmetry
    increasedFlux := input.increasedFlux
    decreasedFlux := input.decreasedFlux
    normalTransit := input.normalTransit
    anomalousMorphology := input.anomalousMorphology
    markedTDV := input.markedTDV
    notes := input.notes
    timestamp := now }

/-- The DO UPDATE arm of the upsert: every non-key column is overwritten from
EXCLUDED and the timestamp is refreshed (classification.go lines 81-93). -/
def applyClassificationUpdate (input : ClassificationInput) (now : Nat)
    (c : Classification) : Classification :=
  { c with
    tExpectedBJD := input.tExpectedBJD
    tObservedBJD := input.tObservedBJD
    ttvMinutes := input.ttvMinutes
    leftAsymmetry := input.leftAsymmetry
    rightAsymmetry := input.rightAsymmetry
    increasedFlux := input.increasedFlux
    decreasedFlux := input.decreasedFlux
    normalTransit := input.normalTransit
    anomalousMorphology := input.anomalousMorphology
    markedTDV := input.markedTDV
    notes := input.notes
    timestamp := now }

/-- models.SaveClassification (classification.go lines 74-100): INSERT ... ON
CONFLICT (curve_id, transit_index, user_id) DO UPDATE. Foreign keys are on
(db.go: _foreign_keys=on), so the statement errors when the curve or user id
does not exist; on conflict the existing row is updated in place. -/
def saveClassificationModel (db : DBState) (curveID transitIndex userID : Int)
    (input : ClassificationInput) (now : Nat) : Except String DBState :=
  if ¬ db.curves.any (fun c => c.id == curveID) then .error "FOREIGN KEY constraint failed"
  else if ¬ db.users.any (fun u => u == userID) then .error "FOREIGN KEY constraint failed"
  else if db.classifications.any (classKeyIs curveID transitIndex userID) then
    .ok { db with classifications := db.classifications.map (fun c =>
      if classKeyIs curveID transitIndex userID c then
        applyClassificationUpdate input now c
      else c) }
  else
    .ok { db with classifications :=
      db.classifications ++ [mkClassification curveID transitIndex userID input now] }

/-- models.GetClassification (classification.go lines 42-72): QueryRow on the
three-column key; no row yields nil without error. -/
def getClassificationModel (db : DBState) (curveID transitIndex userID : Int) :
    Option Classification :=
  db.classifications.find? (classKeyIs curveID transitIndex userID)

/-- models.GetCurveByFilename (classification.go lines 635-654): QueryRow on
the UNIQUE filename column; no row yields nil without error. -/
def getCurveByFilename (db : DBState) (filename : String) : Option Curve :=
  db.curves.find? (fun c => c.filename == filename)

/-- Outcome of a Gin handler, by HTTP status. -/
inductive HandlerStatus where
  | ok
  | badRequest
  | notFound
  | serverError
  deriving Repr, DecidableEq

/-- Timing enrichment step of handler SaveClassification
(handlers/classifications.go lines 79-85): the expected time, observed time
and TTV of the input are overwritten from the stored transit looked up at the
UNCONVERTED path index; when no transit is found the input is kept as sent. -/
def enrichInput (db : DBState) (filename : String) (index : Int)
    (input : ClassificationInput) : ClassificationInput :=
  match getTransit db filename index with
  | some t =>
      { input with
        tExpectedBJD := some t.t0Expected
        tObservedBJD := t.t0Fitted
        ttvMinutes := t.ttvMinutes }
  | none => input

/-- Handler SaveClassification (handlers/classifications.go lines 51-98):
parse the path index, resolve the curve by filename, enrich the input from the
transit at the unconverted index, then upsert at dbIndex = index - 1. -/
def saveClassificationHandler (db : DBState) (userID : Int) (filename indexStr : String)
    (input : ClassificationInput) (now : Nat) : HandlerStatus × DBState :=
  match atoi indexStr with
  | none => (.badRequest, db)
  | some index =>
      match getCurveByFilename db filename with
      | none => (.notFound, db)
      | some curve =>
          let input1 := enrichInput db filename index input
          let dbIndex := index - 1
          match saveClassificationModel db curve.id dbIndex userID input1 now with
          | .ok db1 => (.ok, db1)
          | .error _ => (.serverError, db)

/-- Handler GetClassification (handlers/classifications.go lines 13-49): parse
the path index, resolve the curve, read the row at dbIndex = index - 1; a
missing row is a 200 with null body. -/
def getClassificationHandler (db : DBState) (userID : Int) (filename indexStr : String) :
    HandlerStatus × Option Classification :=
  match atoi indexStr with
  | none => (.badRequest, none)
  | some index =>
      match getCurveByFilename db filename with
      | none => (.notFound, none)
      | some curve => (.ok, getClassificationModel db curve.id (index - 1) userID)

/-! ## LoadCurvesFromCSV (classification.go lines 457-554) -/

/-- The column values one per-file CSV record contributes to the Curves
upsert (classification.go lines 485-522): found_transits (record[4]) is
skipped because LoadTransitsFromCSV manages it, and no column beyond
record[13] is read. -/
structure CurveUpsert where
  filename : String
  timeMin : Option ℚ
  timeMax : Option ℚ
  numExpectedTransits : Option Int
  dataType : String
  periodDays : Option ℚ
  epochBJD : Option ℚ
  durationDays : Option ℚ
  planetRadius : Option ℚ
  semiMajorAxis : Option ℚ
  inclinationDeg : Option ℚ
  u1 : Option ℚ
  u2 : Option ℚ
  deriving Repr, DecidableEq

/-- Field-by-field parse of one per-file CSV record
(classification.go lines 485-522). -/
def parseCurveRecord (r : Record) : CurveUpsert :=
  { filename := cell r 0
    timeMin := parseOptFloat (cell r 1)
    timeMax := parseOptFloat (cell r 2)
    numExpectedTransits := parseOptInt (cell r 3)
    dataType := cell r 5
    periodDays := parseOptFloat (cell r 6)
    epochBJD := parseOptFloat (cell r 7)
    durationDays := parseOptFloat (cell r 8)
    planetRadius := parseOptFloat (cell r 9)
    semiMajorAxis := parseOptFloat (cell r 10)
    inclinationDeg := parseOptFloat (cell r 11)
    u1 := parseOptFloat (cell r 12)
    u2 := parseOptFloat (cell r 13) }

/-- The DO UPDATE arm of the Curves upsert (classification.go lines 529-541):
id and found_transits are untouched. -/
def applyCurveUpdate (u : CurveUpsert) (c : Curve) : Curve :=
  { c with
    timeMin := u.timeMin
    timeMax := u.timeMax
    numExpectedTransits := u.numExpectedTransits
    dataType := some u.dataType
    periodDays := u.periodDays
    epochBJD := u.epochBJD
    durationDays := u.durationDays
    planetRadius := u.planetRadius
    semiMajorAxis := u.semiMajorAxis
    inclinationDeg := u.inclinationDeg
    u1 := u.u1
    u2 := u.u2 }

/-- The INSERT arm of the Curves upsert: found_transits takes the schema
default 0 (migration 004 line 17). -/
def newCurve (id : Int) (u : CurveUpsert) : Curve :=
  { id := id
    filename := u.filename
    timeMin := u.timeMin
    timeMax := u.timeMax
    numExpectedTransits := u.numExpectedTransits
    foundTransits := 0
    dataType := some u.dataType
    periodDays := u.periodDays
    epochBJD := u.epochBJD
    durationDays := u.durationDays
    planetRadius := u.planetRadius
    semiMajorAxis := u.semiMajorAxis
    inclinationDeg := u.inclinationDeg
    u1 := u.u1
    u2 := u.u2 }

/-- Fresh AUTOINCREMENT id: strictly greater than every id in the table. -/
def nextCurveId (curves : List Curve) : Int :=
  1 + curves.foldl (fun m c => max m c.id) 0

/-- INSERT INTO Curves ... ON CONFLICT(filename) DO UPDATE
(classification.go lines 524-544). -/
def upsertCurve (curves : List Curve) (u : CurveUpsert) : List Curve :=
  if curves.any (fun c => c.filename == u.filename) then
    curves.map (fun c => if c.filename == u.filename then applyCurveUpdate u c else c)
  else curves ++ [newCurve (nextCurveId curves) u]

/-- Body of the record loop of LoadCurvesFromCSV (classification.go lines
475-550): records of fewer than 14 fields or with an empty filename are
skipped. -/
def processCurveRecord (curves : List Curve) (r : Record) : List Curve :=
  if r.length < 14 then curves
  else if cell r 0 = "" then curves
  else upsertCurve curves (parseCurveRecord r)

/-- LoadCurvesFromCSV (classification.go lines 457-554): fails only when the
CSV has fewer than two records; otherwise upserts one curve per data record,
keyed by filename. -/
def loadCurvesFromCSV (db : DBState) (records : List Record) : Except String DBState :=
  if records.length < 2 then .error "CSV has no data rows"
  else .ok { db with curves := (records.drop 1).foldl processCurveRecord db.curves }

/-- Modelled from the spec: the per-file CSV layout enumerated in section
4.5(b) — filename, observed time min, time max, number of expected transits,
then the OrbitalParameters fields starting with the period at record[4] —
read into the same upsert shape for comparison with the loader. The spec
layout carries no data-type and no found-transits column, so dataType is
empty. -/
def specConsumeCurveRecord (r : Record) : CurveUpsert :=
  { filename := cell r 0
    timeMin := parseOptFloat (cell r 1)
    timeMax := parseOptFloat (cell r 2)
    numExpectedTransits := parseOptInt (cell r 3)
    dataType := ""
    periodDays := parseOptFloat (cell r 4)
    epochBJD := parseOptFloat (cell r 5)
    durationDays := parseOptFloat (cell r 6)
    planetRadius := parseOptFloat (cell r 7)
    semiMajorAxis := parseOptFloat (cell r 8)
    inclinationDeg := parseOptFloat (cell r 9)
    u1 := parseOptFloat (cell r 10)
    u2 := parseOptFloat (cell r 11) }

/-! ## Spec-modelled plotter components (source not under the backend tree) -/

/-- Modelled from the spec: the ephemeris subset of OrbitalParameters used by
the Transit Segmenter of the Python plotter, whose source is absent from
src/. -/
structure Ephemeris where
  period : ℚ
  epoch : ℚ
  duration : ℚ
  deriving Repr, DecidableEq

/-- Modelled from the spec: a TransitWindow — its 0-based index, its expected
mid-transit time, and the samples of the light curve inside the window. -/
structure TransitWindow where
  index : Nat
  t0 : ℚ
  samples : List ℚ
  deriving Repr, DecidableEq

/-- Modelled from the spec, section 4.2: the candidate epochs
epoch + k * period for k from ceil((tmin − epoch) / period) to
floor((tmax − epoch) / period). -/
def candidateEpochs (e : Ephemeris) (tmin tmax : ℚ) : List ℚ :=
  let kmin : Int := Int.ceil ((tmin - e.epoch) / e.period)
  let kmax : Int := Int.floor ((tmax - e.epoch) / e.period)
  (List.range (kmax + 1 - kmin).toNat).map
    (fun i : Nat => e.epoch + ((kmin + (i : Int) : Int) : ℚ) * e.period)

/-- Modelled from the spec, section 4.2: a candidate is kept only if some
sample lies strictly inside the in-transit interval around it. -/
def hasInTransitData (e : Ephemeris) (times : List ℚ) (t0 : ℚ) : Bool :=
  times.any (fun t => decide (t0 - e.duration / 2 < t ∧ t < t0 + e.duration / 2))

/-- Modelled from the spec, section 4.2: the windows the Segmenter keeps over
the observed span [tmin, tmax] — candidates with in-transit data, sliced with
half-width mult * duration and enumerated with sequential 0-based indices in
chronological order. -/
def segmentKept (e : Ephemeris) (mult : ℚ) (times : List ℚ) (tmin tmax : ℚ) :
    List TransitWindow :=
  (((candidateEpochs e tmin tmax).filter (hasInTransitData e times)).enum).map
    (fun p =>
      { index := p.1
        t0 := p.2
        samples := times.filter (fun t =>
          decide (p.2 - mult * e.duration ≤ t ∧ t ≤ p.2 + mult * e.duration)) })

/-- Modelled from the spec, section 4.2: the Transit Segmenter. A nonpositive
period or duration is InvalidEphemeris; an empty time series yields no
windows. -/
def segment (e : Ephemeris) (mult : ℚ) (times : List ℚ) :
    Except String (List TransitWindow) :=
  if e.period ≤ 0 ∨ e.duration ≤ 0 then .error "InvalidEphemeris"
  else
    match times.min?, times.max? with
    | some tmin, some tmax => .ok (segmentKept e mult times tmin tmax)
    | _, _ => .ok []

/-- Modelled from the spec, sections 3 and 4.3: the timing fields of a
FitResult produced by the Model Fitter, whose source is absent from src/. -/
structure FitResult where
  t0Expected : ℚ
  t0Fitted : Option ℚ
  ttvMinutes : Option ℚ
  deriving Repr, DecidableEq

/-- Modelled from the spec: FitResult timing construction —
ttv_minutes = (fitted_time − expected_time) × 1440 when a fitted time is
present, null otherwise. -/
def mkFitResult (t0Expected : ℚ) (t0Fitted : Option ℚ) : FitResult :=
  { t0Expected := t0Expected
    t0Fitted := t0Fitted
    ttvMinutes := t0Fitted.map (fun tf => (tf - t0Expected) * 1440) }

/-- Modelled from the spec: the static file server gin mounts on /plots
(main.go lines 69-70) serves the files of the plots directory unmodified; the
directory is a finite map from filename to contents. -/
def servePlots {α : Type} (plotsDir : String → Option α) (name : String) : Option α :=
  plotsDir name

/-! ## Helper lemmas -/

theorem find?_eq_head?_filter {α : Type} (p : α → Bool) :
    ∀ l : List α, l.find? p = (l.filter p).head?
  | [] => rfl
  | a :: l => by
      by_cases h : p a = true
      · rw [List.find?_cons_of_pos l h, List.filter_cons_of_pos h, List.head?_cons]
      · rw [List.find?_cons_of_neg l h, List.filter_cons_of_neg h]
        exact find?_eq_head?_filter p l

/-! ## Concrete fixtures for the witnesses -/

/-- Per-transit CSV header row fixture. -/
def wHeader : Record :=
  ["file", "transit_index", "t0_expected", "t0_fitted", "ttv_minutes", "rp_fitted",
   "a_fitted", "rms_residuals", "period", "duration", "inc", "u1", "u2", "plot_file"]

/-- Fully populated per-transit row fixture. -/
def wRow0 : Record :=
  ["a.csv", "0", "100.5", "100.51", "14.4", "0.02", "8.8", "0.001", "2.36", "0.1",
   "89.5", "0.4", "0.25", "a_0.png"]

/-- Per-transit row fixture with the nullable cells empty (unfitted transit). -/
def wRow1 : Record :=
  ["a.csv", "1", "102.86", "", "", "0.02", "8.8", "", "2.36", "0.1", "89.5",
   "0.4", "0.25", "a_1.png"]

/-- Record with fewer than 14 fields. -/
def wShort : Record := ["a.csv", "2"]

/-- Curve row fixture for filename a.csv. -/
def wCurveA : Curve :=
  { id := 1, filename := "a.csv", timeMin := none, timeMax := none,
    numExpectedTransits := none, foundTransits := 5, dataType := none,
    periodDays := none, epochBJD := none, durationDays := none,
    planetRadius := none, semiMajorAxis := none, inclinationDeg := none,
    u1 := none, u2 := none }

/-- Database fixture: one curve, one user, empty Transits and Classifications. -/
def wDB : DBState := { curves := [wCurveA], users := [7], transits := [], classifications := [] }

/-- Empty loop state fixture. -/
def wSt : LoadState := { transits := [], counts := fun _ => 0 }

/-- Filename map fixture matching wDB. -/
def wMap : List (String × Int) := [("a.csv", 1)]

/-! ## C2: per-transit CSV column layout -/

/-- C2: the per-transit CSV has the fixed 14-column order, LoadTransitsFromCSV
reads each field at exactly the stated position (record[0] resolves the curve,
record[1] the index, record[2] through record[12] the numeric fields,
record[13] the plot filename), and records with fewer than 14 fields are
skipped. -/
theorem transits_csv_column_layout (cmap : List (String × Int)) (st : LoadState)
    (r s : Record) (curveID : Int) (hr : 14 ≤ r.length) (hs : s.length < 14) :
    processTransitRecord cmap st s = st ∧
    processTransitRecord cmap st r =
      (match cmap.lookup (cell r 0) with
       | none => st
       | some cid =>
           match insertTransit st.transits (parseTransitRecord cid r) with
           | none => st
           | some ts =>
               { transits := ts
                 counts := fun i => if i = cid then st.counts i + 1 else st.counts i }) ∧
    (parseTransitRecord curveID r).curveId = curveID ∧
    (parseTransitRecord curveID r).transitIndex = parseReqInt (cell r 1) ∧
    (parseTransitRecord curveID r).t0Expected = parseReqFloat (cell r 2) ∧
    (parseTransitRecord curveID r).t0Fitted = parseOptFloat (cell r 3) ∧
    (parseTransitRecord curveID r).ttvMinutes = parseOptFloat (cell r 4) ∧
    (parseTransitRecord curveID r).rpFitted = parseReqFloat (cell r 5) ∧
    (parseTransitRecord curveID r).aFitted = parseReqFloat (cell r 6) ∧
    (parseTransitRecord curveID r).rmsResiduals = parseOptFloat (cell r 7) ∧
    (parseTransitRecord curveID r).period = parseReqFloat (cell r 8) ∧
    (parseTransitRecord curveID r).duration = parseOptFloat (cell r 9) ∧
    (parseTransitRecord curveID r).inc = parseReqFloat (cell r 10) ∧
    (parseTransitRecord curveID r).u1 = parseReqFloat (cell r 11) ∧
    (parseTransitRecord curveID r).u2 = parseReqFloat (cell r 12) ∧
    (parseTransitRecord curveID r).plotFile = cell r 13 := by
  refine ⟨?_, ?_, rfl, rfl, rfl, rfl, rfl, rfl, rfl, rfl, rfl, rfl, rfl, rfl, rfl, rfl⟩
  · simp only [processTransitRecord, if_pos hs]
  · simp only [processTransitRecord, if_neg (Nat.not_lt.mpr hr)]

/-- Witness for C2 at the concrete fixtures. -/
theorem transits_csv_column_layout_witness :
    processTransitRecord wMap wSt wShort = wSt ∧
    processTransitRecord wMap wSt wRow0 =
      (match wMap.lookup (cell wRow0 0) with
       | none => wSt
       | some cid =>
           match insertTransit wSt.transits (parseTransitRecord cid wRow0) with
           | none => wSt
           | some ts =>
               { transits := ts
                 counts := fun i => if i = cid then wSt.counts i + 1 else wSt.counts i }) ∧
    (parseTransitRecord 1 wRow0).curveId = 1 ∧
    (parseTransitRecord 1 wRow0).transitIndex = parseReqInt (cell wRow0 1) ∧
    (parseTransitRecord 1 wRow0).t0Expected = parseReqFloat (cell wRow0 2) ∧
    (parseTransitRecord 1 wRow0).t0Fitted = parseOptFloat (cell wRow0 3) ∧
    (parseTransitRecord 1 wRow0).ttvMinutes = parseOptFloat (cell wRow0 4) ∧
    (parseTransitRecord 1 wRow0).rpFitted = parseReqFloat (cell wRow0 5) ∧
    (parseTransitRecord 1 wRow0).aFitted = parseReqFloat (cell wRow0 6) ∧
    (parseTransitRecord 1 wRow0).rmsResiduals = parseOptFloat (cell wRow0 7) ∧
    (parseTransitRecord 1 wRow0).period = parseReqFloat (cell wRow0 8) ∧
    (parseTransitRecord 1 wRow0).duration = parseOptFloat (cell wRow0 9) ∧
    (parseTransitRecord 1 wRow0).inc = parseReqFloat (cell wRow0 10) ∧
    (parseTransitRecord 1 wRow0).u1 = parseReqFloat (cell wRow0 11) ∧
    (parseTransitRecord 1 wRow0).u2 = parseReqFloat (cell wRow0 12) ∧
    (parseTransitRecord 1 wRow0).plotFile = cell wRow0 13 :=
  transits_csv_column_layout wMap wSt wRow0 wShort 1 (by decide) (by decide)

/-! ## C4: nullable numeric fields encoded as the empty string -/

/-- C4: the nullable numeric columns (fitted time, TTV minutes, RMS, duration)
map an empty or unparseable cell to a nil pointer and a numeric cell to the
present value, while the non-nullable numeric columns always carry a value
(the parse result, or the Go zero value when parsing fails). -/
theorem nullable_fields_empty_string (s u : String) (v : ℚ) (r : Record) (curveID : Int)
    (hfail : parseFloat s = none) (hok : parseFloat u = some v) (hne : u ≠ "") :
    parseOptFloat "" = none ∧
    parseOptFloat s = none ∧
    parseOptFloat u = some v ∧
    (parseTransitRecord curveID r).t0Fitted = parseOptFloat (cell r 3) ∧
    (parseTransitRecord curveID r).ttvMinutes = parseOptFloat (cell r 4) ∧
    (parseTransitRecord curveID r).rmsResiduals = parseOptFloat (cell r 7) ∧
    (parseTransitRecord curveID r).duration = parseOptFloat (cell r 9) ∧
    (parseTransitRecord curveID r).t0Expected = (parseFloat (cell r 2)).getD 0 ∧
    (parseTransitRecord curveID r).rpFitted = (parseFloat (cell r 5)).getD 0 ∧
    (parseTransitRecord curveID r).aFitted = (parseFloat (cell r 6)).getD 0 ∧
    (parseTransitRecord curveID r).period = (parseFloat (cell r 8)).getD 0 ∧
    (parseTransitRecord curveID r).inc = (parseFloat (cell r 10)).getD 0 ∧
    (parseTransitRecord curveID r).u1 = (parseFloat (cell r 11)).getD 0 ∧
    (parseTransitRecord curveID r).u2 = (parseFloat (cell r 12)).getD 0 := by
  refine ⟨rfl, ?_, ?_, rfl, rfl, rfl, rfl, rfl, rfl, rfl, rfl, rfl, rfl, rfl⟩
  · simp [parseOptFloat, hfail]
  · simp [parseOptFloat, hok, hne]

/-- Witness for C4: an unparseable cell, a numeric cell, and the fixture row. -/
theorem nullable_fields_empty_string_witness :
    parseOptFloat "" = none ∧
    parseOptFloat "n/a" = none ∧
    parseOptFloat "0.25" = some (1 / 4 : ℚ) ∧
    (parseTransitRecord 1 wRow1).t0Fitted = parseOptFloat (cell wRow1 3) ∧
    (parseTransitRecord 1 wRow1).ttvMinutes = parseOptFloat (cell wRow1 4) ∧
    (parseTransitRecord 1 wRow1).rmsResiduals = parseOptFloat (cell wRow1 7) ∧
    (parseTransitRecord 1 wRow1).duration = parseOptFloat (cell wRow1 9) ∧
    (parseTransitRecord 1 wRow1).t0Expected = (parseFloat (cell wRow1 2)).getD 0 ∧
    (parseTransitRecord 1 wRow1).rpFitted = (parseFloat (cell wRow1 5)).getD 0 ∧
    (parseTransitRecord 1 wRow1).aFitted = (parseFloat (cell wRow1 6)).getD 0 ∧
    (parseTransitRecord 1 wRow1).period = (parseFloat (cell wRow1 8)).getD 0 ∧
    (parseTransitRecord 1 wRow1).inc = (parseFloat (cell wRow1 10)).getD 0 ∧
    (parseTransitRecord 1 wRow1).u1 = (parseFloat (cell wRow1 11)).getD 0 ∧
    (parseTransitRecord 1 wRow1).u2 = (parseFloat (cell wRow1 12)).getD 0 :=
  nullable_fields_empty_string "n/a" "0.25" (1 / 4 : ℚ) wRow1 1
    (by decide) (by with_unfolding_all decide) (by decide)

/-! ## C5: TTV formula and backend copy-through -/

/-- Transit row fixture: the parse of wRow0. -/
def wTransit0 : Transit := parseTransitRecord 1 wRow0

/-- Database fixture holding one loaded transit. -/
def wDBT : DBState :=
  { curves := [wCurveA], users := [7], transits := [wTransit0], classifications := [] }

/-- Classification input fixture. -/
def wInput : ClassificationInput :=
  { tExpectedBJD := none, tObservedBJD := none, ttvMinutes := none,
    leftAsymmetry := false, rightAsymmetry := false, increasedFlux := false,
    decreasedFlux := false, normalTransit := true, anomalousMorphology := false,
    markedTDV := false, notes := "looks fine" }

/-- C5: with a fitted mid-transit time present, the spec-modelled Fitter sets
ttv_minutes to exactly (fitted − expected) × 1440, hence within the 1e-9
tolerance; and the backend handler only copies the expected time, fitted time
and TTV parsed from the CSV into the classification input, recomputing
nothing. -/
theorem ttv_formula_and_copy (te tf q : ℚ) (db : DBState) (fn : String) (i : Int)
    (t : Transit) (inp : ClassificationInput)
    (ht : getTransit db fn i = some t)
    (hq : (mkFitResult te (some tf)).ttvMinutes = some q) :
    (mkFitResult te (some tf)).ttvMinutes = some ((tf - te) * 1440) ∧
    |q - (tf - te) * 1440| ≤ 1 / 10 ^ 9 ∧
    enrichInput db fn i inp =
      { inp with
        tExpectedBJD := some t.t0Expected
        tObservedBJD := t.t0Fitted
        ttvMinutes := t.ttvMinutes } := by
  refine ⟨rfl, ?_, ?_⟩
  · have hqe : q = (tf - te) * 1440 := by
      have h1 := hq
      simp only [mkFitResult, Option.map_some', Option.some.injEq] at h1
      exact h1.symm
    rw [hqe, sub_self, abs_zero]
    positivity
  · simp [enrichInput, ht]

/-- Witness for C5 at the concrete fixtures. -/
theorem ttv_formula_and_copy_witness :
    (mkFitResult 100 (some 101)).ttvMinutes = some (((101 : ℚ) - 100) * 1440) ∧
    |(1440 : ℚ) - ((101 : ℚ) - 100) * 1440| ≤ 1 / 10 ^ 9 ∧
    enrichInput wDBT "a.csv" 0 wInput =
      { wInput with
        tExpectedBJD := some wTransit0.t0Expected
        tObservedBJD := wTransit0.t0Fitted
        ttvMinutes := wTransit0.ttvMinutes } :=
  ttv_formula_and_copy 100 101 1440 wDBT "a.csv" 0 wTransit0 wInput rfl
    (by rw [mkFitResult]; norm_num)

/-! ## C6: the per-file CSV layout the backend consumes -/

/-- Per-file CSV row laid out exactly as the spec section 4.5(b) enumerates:
filename, time min, time max, number of expected transits, then the
OrbitalParameters fields starting with the period. -/
def specLayoutRow : Record :=
  ["sim_0001.csv", "0", "30", "13", "2.36", "2454833.59", "0.1", "0.02", "8.8",
   "89.5", "0.4", "0.25", "0", "90"]

/-- Counterexample to C6: on a row in the spec-enumerated per-file layout the
backend loader reads values other than the ones that layout assigns — it
takes record[6] (here the duration 0.1) as the period instead of record[4]
(the period 2.36), because the file it actually consumes has found_transits
and data_type columns at positions 4 and 5 that the spec enumeration does
not mention. -/
theorem curves_csv_layout_cex :
    (parseCurveRecord specLayoutRow).periodDays ≠
      (specConsumeCurveRecord specLayoutRow).periodDays ∧
    (parseCurveRecord specLayoutRow).epochBJD ≠
      (specConsumeCurveRecord specLayoutRow).epochBJD ∧
    parseCurveRecord specLayoutRow ≠ specConsumeCurveRecord specLayoutRow := by
  refine ⟨?_, ?_, ?_⟩ <;> with_unfolding_all decide

/-- Curve upserts leave the set of filenames duplicate-free. -/
theorem upsertCurve_names (curves : List Curve) (u : CurveUpsert)
    (hdist : curves.Pairwise (fun a b => a.filename ≠ b.filename)) :
    (upsertCurve curves u).Pairwise (fun a b => a.filename ≠ b.filename) := by
  unfold upsertCurve
  by_cases h : curves.any (fun c => c.filename == u.filename) = true
  · rw [if_pos h]
    have hname : ∀ c : Curve,
        (if c.filename == u.filename then applyCurveUpdate u c else c).filename
          = c.filename := by
      intro c
      by_cases hc : (c.filename == u.filename) = true
      · rw [if_pos hc]; rfl
      · rw [if_neg hc]
    rw [List.pairwise_map]
    exact hdist.imp (fun hab => by
      intro hcontra
      exact hab (by rwa [hname, hname] at hcontra))
  · rw [if_neg h]
    rw [List.pairwise_append]
    refine ⟨hdist, by simp, ?_⟩
    intro a ha b hb
    have hb1 : b = newCurve (nextCurveId curves) u := by simpa using hb
    have ha1 : ¬ (a.filename == u.filename) = true := by
      intro hc
      exact h (List.any_eq_true.mpr ⟨a, ha, hc⟩)
    subst hb1
    intro hcontra
    exact ha1 (by simpa [newCurve] using hcontra)

/-- C6 amended: the per-file layout the backend consumes is filename(0),
time_min(1), time_max(2), num_expected_transits(3), found_transits(4 —
skipped, managed by the transit loader), data_type(5), then period, epoch,
duration, radius ratio, semi-major axis, inclination, u1, u2 at positions
6-13; rows shorter than 14 fields or with an empty filename are skipped; each
kept row is upserted keyed by the UNIQUE filename, which keeps filenames
duplicate-free, one curve per file. -/
theorem curves_csv_actual_layout (curves : List Curve) (r s q : Record)
    (hr : 14 ≤ r.length) (hr0 : cell r 0 ≠ "") (hs : s.length < 14)
    (hq : 14 ≤ q.length) (hq0 : cell q 0 = "")
    (hdist : curves.Pairwise (fun a b => a.filename ≠ b.filename)) :
    processCurveRecord curves s = curves ∧
    processCurveRecord curves q = curves ∧
    processCurveRecord curves r = upsertCurve curves (parseCurveRecord r) ∧
    (parseCurveRecord r).filename = cell r 0 ∧
    (parseCurveRecord r).timeMin = parseOptFloat (cell r 1) ∧
    (parseCurveRecord r).timeMax = parseOptFloat (cell r 2) ∧
    (parseCurveRecord r).numExpectedTransits = parseOptInt (cell r 3) ∧
    (parseCurveRecord r).dataType = cell r 5 ∧
    (parseCurveRecord r).periodDays = parseOptFloat (cell r 6) ∧
    (parseCurveRecord r).epochBJD = parseOptFloat (cell r 7) ∧
    (parseCurveRecord r).durationDays = parseOptFloat (cell r 8) ∧
    (parseCurveRecord r).planetRadius = parseOptFloat (cell r 9) ∧
    (parseCurveRecord r).semiMajorAxis = parseOptFloat (cell r 10) ∧
    (parseCurveRecord r).inclinationDeg = parseOptFloat (cell r 11) ∧
    (parseCurveRecord r).u1 = parseOptFloat (cell r 12) ∧
    (parseCurveRecord r).u2 = parseOptFloat (cell r 13) ∧
    (processCurveRecord curves r).Pairwise (fun a b => a.filename ≠ b.filename) := by
  have h3 : processCurveRecord curves r = upsertCurve curves (parseCurveRecord r) := by
    simp only [processCurveRecord, if_neg (Nat.not_lt.mpr hr), if_neg hr0]
  refine ⟨?_, ?_, h3, rfl, rfl, rfl, rfl, rfl, rfl, rfl, rfl, rfl, rfl, rfl, rfl, rfl, ?_⟩
  · simp only [processCurveRecord, if_pos hs]
  · simp only [processCurveRecord, if_neg (Nat.not_lt.mpr hq), if_pos hq0]
  · rw [h3]
    exact upsertCurve_names curves (parseCurveRecord r) hdist

/-- Valid per-file CSV row fixture in the layout the backend consumes. -/
def wCurveRow : Record :=
  ["b.csv", "0", "30", "13", "0", "synthetic", "2.36", "2454833.59", "0.1",
   "0.02", "8.8", "89.5", "0.4", "0.25"]

/-- Fourteen-column row fixture with an empty filename. -/
def wEmptyName : Record :=
  ["", "", "", "", "", "", "", "", "", "", "", "", "", ""]

/-- Witness for the amended C6 at the concrete fixtures. -/
theorem curves_csv_actual_layout_witness :
    processCurveRecord [wCurveA] wShort = [wCurveA] ∧
    processCurveRecord [wCurveA] wEmptyName = [wCurveA] ∧
    processCurveRecord [wCurveA] wCurveRow = upsertCurve [wCurveA] (parseCurveRecord wCurveRow) ∧
    (parseCurveRecord wCurveRow).filename = cell wCurveRow 0 ∧
    (parseCurveRecord wCurveRow).timeMin = parseOptFloat (cell wCurveRow 1) ∧
    (parseCurveRecord wCurveRow).timeMax = parseOptFloat (cell wCurveRow 2) ∧
    (parseCurveRecord wCurveRow).numExpectedTransits = parseOptInt (cell wCurveRow 3) ∧
    (parseCurveRecord wCurveRow).dataType = cell wCurveRow 5 ∧
    (parseCurveRecord wCurveRow).periodDays = parseOptFloat (cell wCurveRow 6) ∧
    (parseCurveRecord wCurveRow).epochBJD = parseOptFloat (cell wCurveRow 7) ∧
    (parseCurveRecord wCurveRow).durationDays = parseOptFloat (cell wCurveRow 8) ∧
    (parseCurveRecord wCurveRow).planetRadius = parseOptFloat (cell wCurveRow 9) ∧
    (parseCurveRecord wCurveRow).semiMajorAxis = parseOptFloat (cell wCurveRow 10) ∧
    (parseCurveRecord wCurveRow).inclinationDeg = parseOptFloat (cell wCurveRow 11) ∧
    (parseCurveRecord wCurveRow).u1 = parseOptFloat (cell wCurveRow 12) ∧
    (parseCurveRecord wCurveRow).u2 = parseOptFloat (cell wCurveRow 13) ∧
    (processCurveRecord [wCurveA] wCurveRow).Pairwise (fun a b => a.filename ≠ b.filename) :=
  curves_csv_actual_layout [wCurveA] wCurveRow wShort wEmptyName
    (by decide) (by decide) (by decide) (by decide) (by decide) (by decide)

/-! ## C7: segmenter indices are a contiguous 0-based sequence -/

/-- A map of a strictly monotone rational function over List.range is
pairwise increasing. -/
theorem pairwise_lt_map_range (n : Nat) (f : Nat → ℚ)
    (hf : ∀ a b : Nat, a < b → f a < f b) :
    ((List.range n).map f).Pairwise (· < ·) := by
  rw [List.pairwise_map]
  exact (List.pairwise_lt_range n).imp (fun h => hf _ _ h)

/-- Candidate epochs are strictly increasing when the period is positive. -/
theorem candidateEpochs_pairwise (e : Ephemeris) (tmin tmax : ℚ) (hp : 0 < e.period) :
    (candidateEpochs e tmin tmax).Pairwise (· < ·) := by
  simp only [candidateEpochs]
  refine pairwise_lt_map_range _ _ ?_
  intro a b hab
  refine add_lt_add_left (mul_lt_mul_of_pos_right ?_ hp) e.epoch
  have h1 : (Int.ceil ((tmin - e.epoch) / e.period) + (a : Int))
      < Int.ceil ((tmin - e.epoch) / e.period) + (b : Int) := by
    have := Int.ofNat_lt.mpr hab
    omega
  exact_mod_cast h1

/-- The kept windows carry the indices 0, 1, ... in order. -/
theorem segmentKept_indices (e : Ephemeris) (mult : ℚ) (times : List ℚ) (tmin tmax : ℚ) :
    (segmentKept e mult times tmin tmax).map TransitWindow.index
      = List.range (segmentKept e mult times tmin tmax).length := by
  simp only [segmentKept]
  rw [List.map_map, List.length_map, List.enum_length]
  exact List.enum_map_fst _

/-- The kept windows are in strictly increasing epoch order when the period is
positive. -/
theorem segmentKept_chrono (e : Ephemeris) (mult : ℚ) (times : List ℚ) (tmin tmax : ℚ)
    (hp : 0 < e.period) :
    ((segmentKept e mult times tmin tmax).map TransitWindow.t0).Pairwise (· < ·) := by
  simp only [segmentKept]
  rw [List.map_map]
  have hsnd : (TransitWindow.t0 ∘ fun p : Nat × ℚ =>
      ({ index := p.1, t0 := p.2,
         samples := times.filter (fun t =>
           decide (p.2 - mult * e.duration ≤ t ∧ t ≤ p.2 + mult * e.duration)) }
        : TransitWindow)) = Prod.snd := rfl
  rw [hsnd, List.enum_map_snd]
  exact (candidateEpochs_pairwise e tmin tmax hp).sublist (List.filter_sublist _)

/-- A successful segmentation is either empty or the kept windows of the
observed span. -/
theorem segment_cases (e : Ephemeris) (mult : ℚ) (times : List ℚ) (ws : List TransitWindow)
    (hnot : ¬ (e.period ≤ 0 ∨ e.duration ≤ 0))
    (hws : segment e mult times = .ok ws) :
    ws = [] ∨ ∃ tmin tmax, ws = segmentKept e mult times tmin tmax := by
  rw [segment, if_neg hnot] at hws
  split at hws
  · right
    rename_i tmin tmax hmin hmax
    cases hws
    exact ⟨tmin, tmax, rfl⟩
  · left
    cases hws
    rfl

/-- C7: for a positive period and duration the spec-modelled Segmenter
succeeds and the produced windows carry exactly the indices 0, 1, ...,
in chronological order of their expected epochs; in particular the first
window of any nonempty result has index 0. -/
theorem segmenter_indices_contiguous (e : Ephemeris) (mult : ℚ) (times : List ℚ)
    (ws : List TransitWindow) (hp : 0 < e.period) (hd : 0 < e.duration)
    (hws : segment e mult times = .ok ws) :
    ws.map TransitWindow.index = List.range ws.length ∧
    (ws.map TransitWindow.t0).Pairwise (· < ·) ∧
    ws.head?.map TransitWindow.index = if ws.isEmpty then none else some 0 := by
  have hnot : ¬ (e.period ≤ 0 ∨ e.duration ≤ 0) := by
    push_neg
    exact ⟨hp, hd⟩
  have main : ws.map TransitWindow.index = List.range ws.length ∧
      (ws.map TransitWindow.t0).Pairwise (· < ·) := by
    rcases segment_cases e mult times ws hnot hws with h | ⟨tmin, tmax, h⟩
    · subst h
      exact ⟨rfl, List.Pairwise.nil⟩
    · subst h
      exact ⟨segmentKept_indices e mult times tmin tmax,
        segmentKept_chrono e mult times tmin tmax hp⟩
  refine ⟨main.1, main.2, ?_⟩
  cases hw : ws with
  | nil => simp
  | cons w rest =>
      have h1 := main.1
      rw [hw] at h1
      have h2 := congrArg List.head? h1
      simp only [List.map_cons, List.head?_cons, List.length_cons,
        List.range_succ_eq_map, Option.some.injEq] at h2
      simp [h2]

/-- Ephemeris fixture: period 1, epoch 0, duration 1. -/
def wEph : Ephemeris := { period := 1, epoch := 0, duration := 1 }

/-- Window list fixture: what the segmenter produces on the one-sample series
[0] with wEph. -/
def wWindows : List TransitWindow := [{ index := 0, t0 := 0, samples := [0] }]

/-- Witness for C7 at the concrete fixtures. -/
theorem segmenter_indices_contiguous_witness :
    wWindows.map TransitWindow.index = List.range wWindows.length ∧
    (wWindows.map TransitWindow.t0).Pairwise (· < ·) ∧
    wWindows.head?.map TransitWindow.index = if wWindows.isEmpty then none else some 0 :=
  segmenter_indices_contiguous wEph 1 [0] wWindows (by norm_num [wEph]) (by norm_num [wEph])
    (by with_unfolding_all rfl)

/-! ## C9: SaveClassification is an upsert with last-write-wins -/

/-- One invocation of models.SaveClassification: the key triple, the input
and the timestamp tick of the call. -/
structure SaveOp where
  curveId : Int
  transitIndex : Int
  userId : Int
  input : ClassificationInput
  time : Nat
  deriving Repr, DecidableEq

/-- Effect of one save on the store: the new database on success, the store
unchanged on error (the handler reports 500 and leaves the store as is). -/
def applySave (db : DBState) (op : SaveOp) : DBState :=
  match saveClassificationModel db op.curveId op.transitIndex op.userId op.input op.time with
  | .ok db1 => db1
  | .error _ => db

/-- Replay of a sequence of saves. -/
def applySaves (db : DBState) (ops : List SaveOp) : DBState := ops.foldl applySave db

/-- The rows stored under one key. -/
def keyFilter (curveID transitIndex userID : Int) (db : DBState) : List Classification :=
  db.classifications.filter (classKeyIs curveID transitIndex userID)

/-- Whether a save targets the given key. -/
def opHasKey (curveID transitIndex userID : Int) (op : SaveOp) : Bool :=
  op.curveId == curveID && op.transitIndex == transitIndex && op.userId == userID

/-- The last save of a sequence touching the given key. -/
def lastKeyed (curveID transitIndex userID : Int) : List SaveOp → Option SaveOp
  | [] => none
  | op :: ops =>
      match lastKeyed curveID transitIndex userID ops with
      | some p => some p
      | none => if opHasKey curveID transitIndex userID op then some op else none

/-- Both foreign keys of a save resolve in the store. -/
def fkOK (db : DBState) (op : SaveOp) : Prop :=
  db.curves.any (fun c => c.id == op.curveId) = true ∧
    db.users.any (fun u => u == op.userId) = true

instance (db : DBState) (op : SaveOp) : Decidable (fkOK db op) := by
  unfold fkOK
  infer_instance

/-- Saves never touch the Curves table or the user set. -/
theorem applySave_tables (db : DBState) (op : SaveOp) :
    (applySave db op).curves = db.curves ∧ (applySave db op).users = db.users := by
  unfold applySave saveClassificationModel
  by_cases h1 : ¬ db.curves.any (fun c => c.id == op.curveId) = true
  · rw [if_pos h1]; exact ⟨rfl, rfl⟩
  · rw [if_neg h1]
    by_cases h2 : ¬ db.users.any (fun u => u == op.userId) = true
    · rw [if_pos h2]; exact ⟨rfl, rfl⟩
    · rw [if_neg h2]
      by_cases h3 : db.classifications.any
          (classKeyIs op.curveId op.transitIndex op.userId) = true
      · rw [if_pos h3]; exact ⟨rfl, rfl⟩
      · rw [if_neg h3]; exact ⟨rfl, rfl⟩

/-- The DO UPDATE arm never changes the key columns. -/
theorem applyClassificationUpdate_key (cid ti uid : Int) (input : ClassificationInput)
    (now : Nat) (c : Classification) :
    classKeyIs cid ti uid (applyClassificationUpdate input now c) = classKeyIs cid ti uid c :=
  rfl

/-- Filtering commutes with a map that does not change the filter verdict. -/
theorem filter_map_invariant {α : Type} (p : α → Bool) (f : α → α)
    (hp : ∀ a, p (f a) = p a) :
    ∀ l : List α, (l.map f).filter p = (l.filter p).map f := by
  intro l
  induction l with
  | nil => rfl
  | cons a l ih =>
      by_cases h : p a = true
      · rw [List.map_cons, List.filter_cons_of_pos ((hp a).trans h),
          List.filter_cons_of_pos h, List.map_cons, ih]
      · rw [List.map_cons, List.filter_cons_of_neg (fun hc => h ((hp a) ▸ hc)),
          List.filter_cons_of_neg h, ih]

/-- A map that fixes every member fixes the list. -/
theorem map_eq_self_of_mem {α : Type} (f : α → α) :
    ∀ l : List α, (∀ a ∈ l, f a = a) → l.map f = l := by
  intro l
  induction l with
  | nil => intro _; rfl
  | cons a l ih =>
      intro h
      rw [List.map_cons, h a (by simp), ih (fun b hb => h b (by simp [hb]))]

/-- The conflict-arm update of a row with the right key is the same row the
insert arm would create. -/
theorem applyClassificationUpdate_eq_mk (cid ti uid : Int) (input : ClassificationInput)
    (now : Nat) (c : Classification) (hc : classKeyIs cid ti uid c = true) :
    applyClassificationUpdate input now c = mkClassification cid ti uid input now := by
  simp only [classKeyIs, Bool.and_eq_true, beq_iff_eq] at hc
  obtain ⟨⟨h1, h2⟩, h3⟩ := hc
  cases c
  simp_all [applyClassificationUpdate, mkClassification]

/-- A save whose key matches leaves exactly one row under the key: the row the
save wrote, with the refreshed timestamp. -/
theorem applySave_keyFilter_hit (db : DBState) (op : SaveOp) (cid ti uid : Int)
    (hfk : fkOK db op) (hkey : opHasKey cid ti uid op = true)
    (hwf : (keyFilter cid ti uid db).length ≤ 1) :
    keyFilter cid ti uid (applySave db op)
      = [mkClassification cid ti uid op.input op.time] := by
  simp only [opHasKey, Bool.and_eq_true, beq_iff_eq] at hkey
  obtain ⟨⟨e1, e2⟩, e3⟩ := hkey
  unfold applySave saveClassificationModel
  rw [if_neg (by simp only [not_not]; exact hfk.1), if_neg (by simp only [not_not]; exact hfk.2)]
  rw [e1, e2, e3]
  by_cases h3 : db.classifications.any (classKeyIs cid ti uid) = true
  · rw [if_pos h3]
    show (db.classifications.map _).filter _ = _
    rw [filter_map_invariant (classKeyIs cid ti uid) _ (fun c => by
      by_cases hc : classKeyIs cid ti uid c = true
      · rw [if_pos hc, applyClassificationUpdate_key, hc]
      · rw [if_neg hc])]
    have hlen1 : (keyFilter cid ti uid db).length = 1 := by
      rcases List.any_eq_true.mp h3 with ⟨c, hcmem, hc⟩
      have hmem : c ∈ keyFilter cid ti uid db := List.mem_filter.mpr ⟨hcmem, hc⟩
      have hpos := List.length_pos_of_mem hmem
      omega
    rcases List.length_eq_one.mp hlen1 with ⟨c0, hc0⟩
    have hc0key : classKeyIs cid ti uid c0 = true := by
      have : c0 ∈ keyFilter cid ti uid db := by rw [hc0]; simp
      exact (List.mem_filter.mp this).2
    have hc0if : (if classKeyIs cid ti uid c0 = true
        then applyClassificationUpdate op.input op.time c0 else c0)
          = mkClassification cid ti uid op.input op.time := by
      rw [if_pos hc0key]
      exact applyClassificationUpdate_eq_mk cid ti uid op.input op.time c0 hc0key
    show (keyFilter cid ti uid db).map _ = _
    rw [hc0, List.map_cons, List.map_nil, hc0if]
  · rw [if_neg h3]
    show (db.classifications ++ [_]).filter _ = _
    rw [List.filter_append]
    have hnil : db.classifications.filter (classKeyIs cid ti uid) = [] :=
      List.filter_eq_nil_iff.mpr (fun c hc hcc =>
        h3 (List.any_eq_true.mpr ⟨c, hc, hcc⟩))
    rw [hnil]
    simp [classKeyIs, mkClassification]

/-- A save for another key leaves the rows under this key untouched. -/
theorem applySave_keyFilter_miss (db : DBState) (op : SaveOp) (cid ti uid : Int)
    (hkey : opHasKey cid ti uid op = false) :
    keyFilter cid ti uid (applySave db op) = keyFilter cid ti uid db := by
  have hkeyne : ¬ (op.curveId = cid ∧ op.transitIndex = ti ∧ op.userId = uid) := by
    intro ⟨e1, e2, e3⟩
    rw [opHasKey, e1, e2, e3] at hkey
    simp at hkey
  unfold applySave saveClassificationModel
  by_cases h1 : ¬ db.curves.any (fun c => c.id == op.curveId) = true
  · rw [if_pos h1]
  · rw [if_neg h1]
    by_cases h2 : ¬ db.users.any (fun u => u == op.userId) = true
    · rw [if_pos h2]
    · rw [if_neg h2]
      by_cases h3 : db.classifications.any
          (classKeyIs op.curveId op.transitIndex op.userId) = true
      · rw [if_pos h3]
        show (db.classifications.map _).filter _ = _
        rw [filter_map_invariant (classKeyIs cid ti uid) _ (fun c => by
          by_cases hc : classKeyIs op.curveId op.transitIndex op.userId c = true
          · rw [if_pos hc, applyClassificationUpdate_key]
          · rw [if_neg hc])]
        refine map_eq_self_of_mem _ _ (fun c hcmem => ?_)
        have hck : classKeyIs cid ti uid c = true := (List.mem_filter.mp hcmem).2
        simp only [classKeyIs, Bool.and_eq_true, beq_iff_eq] at hck
        have : ¬ classKeyIs op.curveId op.transitIndex op.userId c = true := by
          simp only [classKeyIs, Bool.and_eq_true, beq_iff_eq]
          intro ⟨⟨f1, f2⟩, f3⟩
          exact hkeyne ⟨by rw [← f1, hck.1.1], by rw [← f2, hck.1.2], by rw [← f3, hck.2]⟩
        rw [if_neg this]
      · rw [if_neg h3]
        show (db.classifications ++ [_]).filter _ = _
        rw [List.filter_append]
        have : classKeyIs cid ti uid
            (mkClassification op.curveId op.transitIndex op.userId op.input op.time) = false := by
          simp only [classKeyIs, mkClassification, Bool.and_eq_true, beq_iff_eq]
          simp only [Bool.and_eq_false_iff]
          by_contra hcon
          push_neg at hcon
          rcases Decidable.em (op.curveId = cid) with hc1 | hc1
          · rcases Decidable.em (op.transitIndex = ti) with hc2 | hc2
            · rcases Decidable.em (op.userId = uid) with hc3 | hc3
              · exact hkeyne ⟨hc1, hc2, hc3⟩
              · simp [hc1, hc2, hc3] at hcon
            · simp [hc2] at hcon
          · simp [hc1] at hcon
        rw [List.filter_cons_of_neg (by rw [this]; exact Bool.false_ne_true), List.filter_nil,
          List.append_nil]
        rfl

/-- Two consecutive saves of the same key and input collapse to the second
save alone: the upsert is idempotent up to the timestamp column. -/
theorem applySave_absorb (d : DBState) (o : SaveOp) (t2 : Nat) :
    applySave (applySave d o) { o with time := t2 } = applySave d { o with time := t2 } := by
  by_cases h1 : ¬ d.curves.any (fun c => c.id == o.curveId) = true
  · have e1 : applySave d o = d := by
      unfold applySave saveClassificationModel
      rw [if_pos h1]
    rw [e1]
  · by_cases h2 : ¬ d.users.any (fun u => u == o.userId) = true
    · have e1 : applySave d o = d := by
        unfold applySave saveClassificationModel
        rw [if_neg h1, if_pos h2]
      rw [e1]
    · by_cases h3 : d.classifications.any (classKeyIs o.curveId o.transitIndex o.userId) = true
      · have e1 : applySave d o = { d with classifications := (d.classifications.map
            (fun c => if classKeyIs o.curveId o.transitIndex o.userId c then
              applyClassificationUpdate o.input o.time c else c)) } := by
          unfold applySave saveClassificationModel
          rw [if_neg h1, if_neg h2, if_pos h3]
        have hany1 : (d.classifications.map
            (fun c => if classKeyIs o.curveId o.transitIndex o.userId c then
              applyClassificationUpdate o.input o.time c else c)).any
                (classKeyIs o.curveId o.transitIndex o.userId) = true := by
          rw [List.any_map]
          have hcongr : ((classKeyIs o.curveId o.transitIndex o.userId) ∘
              (fun c => if classKeyIs o.curveId o.transitIndex o.userId c then
                applyClassificationUpdate o.input o.time c else c))
              = classKeyIs o.curveId o.transitIndex o.userId := by
            funext c
            by_cases hc : classKeyIs o.curveId o.transitIndex o.userId c = true
            · simp only [Function.comp_apply, if_pos hc, applyClassificationUpdate_key]
            · simp only [Function.comp_apply, if_neg hc]
          rw [hcongr]
          exact h3
        rw [e1]
        unfold applySave saveClassificationModel
        rw [if_neg h1, if_neg h2, if_pos hany1, if_neg h1, if_neg h2, if_pos h3]
        have hmaps : (d.classifications.map
            (fun c => if classKeyIs o.curveId o.transitIndex o.userId c then
              applyClassificationUpdate o.input o.time c else c)).map
            (fun c => if classKeyIs o.curveId o.transitIndex o.userId c then
              applyClassificationUpdate o.input t2 c else c)
            = d.classifications.map
              (fun c => if classKeyIs o.curveId o.transitIndex o.userId c then
                applyClassificationUpdate o.input t2 c else c) := by
          rw [List.map_map]
          refine List.map_congr_left (fun c _ => ?_)
          by_cases hc : classKeyIs o.curveId o.transitIndex o.userId c = true
          · simp only [Function.comp_apply, if_pos hc, applyClassificationUpdate_key,
              if_pos hc]
            rfl
          · simp only [Function.comp_apply, if_neg hc, if_neg hc]
        rw [hmaps]
      · have e1 : applySave d o = { d with classifications := (d.classifications
            ++ [mkClassification o.curveId o.transitIndex o.userId o.input o.time]) } := by
          unfold applySave saveClassificationModel
          rw [if_neg h1, if_neg h2, if_neg h3]
        have hany1 : (d.classifications
            ++ [mkClassification o.curveId o.transitIndex o.userId o.input o.time]).any
              (classKeyIs o.curveId o.transitIndex o.userId) = true := by
          rw [List.any_append]
          refine Bool.or_eq_true_iff.mpr (Or.inr ?_)
          simp [classKeyIs, mkClassification]
        rw [e1]
        unfold applySave saveClassificationModel
        rw [if_neg h1, if_neg h2, if_pos hany1, if_neg h1, if_neg h2, if_neg h3]
        have hmaps : (d.classifications
            ++ [mkClassification o.curveId o.transitIndex o.userId o.input o.time]).map
              (fun c => if classKeyIs o.curveId o.transitIndex o.userId c then
                applyClassificationUpdate o.input t2 c else c)
            = d.classifications
              ++ [mkClassification o.curveId o.transitIndex o.userId o.input t2] := by
          rw [List.map_append]
          have hl : d.classifications.map
              (fun c => if classKeyIs o.curveId o.transitIndex o.userId c then
                applyClassificationUpdate o.input t2 c else c) = d.classifications := by
            refine map_eq_self_of_mem _ _ (fun c hcmem => ?_)
            have hc : ¬ classKeyIs o.curveId o.transitIndex o.userId c = true :=
              fun hcc => h3 (List.any_eq_true.mpr ⟨c, hcmem, hcc⟩)
            rw [if_neg hc]
          rw [hl]
          have hr : (if classKeyIs o.curveId o.transitIndex o.userId
              (mkClassification o.curveId o.transitIndex o.userId o.input o.time) then
                applyClassificationUpdate o.input t2
                  (mkClassification o.curveId o.transitIndex o.userId o.input o.time)
              else mkClassification o.curveId o.transitIndex o.userId o.input o.time)
              = mkClassification o.curveId o.transitIndex o.userId o.input t2 := by
            rw [if_pos (by simp [classKeyIs, mkClassification])]
            rfl
          rw [List.map_cons, List.map_nil, hr]
        rw [hmaps]

/-- Replaying a sequence of saves: the rows under a key end exactly as the
last save targeting that key wrote them, or stay untouched when no save
targets the key. -/
theorem applySaves_keyFilter (cid ti uid : Int) :
    ∀ (ops : List SaveOp) (db : DBState),
      (∀ op ∈ ops, fkOK db op) →
      (keyFilter cid ti uid db).length ≤ 1 →
      keyFilter cid ti uid (applySaves db ops) =
        (match lastKeyed cid ti uid ops with
         | some op => [mkClassification cid ti uid op.input op.time]
         | none => keyFilter cid ti uid db) := by
  intro ops
  induction ops with
  | nil => intro db _ _; rfl
  | cons op ops ih =>
      intro db hfk hwf
      have hfk0 : fkOK db op := hfk op (by simp)
      have hfkrest : ∀ o ∈ ops, fkOK (applySave db op) o := by
        intro o ho
        have hf := hfk o (List.mem_cons_of_mem _ ho)
        have ht := applySave_tables db op
        unfold fkOK at hf ⊢
        rw [ht.1, ht.2]
        exact hf
      have hstep : applySaves db (op :: ops) = applySaves (applySave db op) ops := by
        unfold applySaves
        rw [List.foldl_cons]
      rw [hstep]
      by_cases hkey : opHasKey cid ti uid op = true
      · have hhit := applySave_keyFilter_hit db op cid ti uid hfk0 hkey hwf
        have hwf1 : (keyFilter cid ti uid (applySave db op)).length ≤ 1 := by
          rw [hhit]
          simp
        rw [ih (applySave db op) hfkrest hwf1]
        cases hl : lastKeyed cid ti uid ops with
        | some p => simp [lastKeyed, hl]
        | none => simp [lastKeyed, hl, hkey, hhit]
      · have hb : opHasKey cid ti uid op = false := by simpa using hkey
        have hmiss := applySave_keyFilter_miss db op cid ti uid hb
        have hwf1 : (keyFilter cid ti uid (applySave db op)).length ≤ 1 := by
          rw [hmiss]
          exact hwf
        rw [ih (applySave db op) hfkrest hwf1]
        cases hl : lastKeyed cid ti uid ops with
        | some p => simp [lastKeyed, hl]
        | none => simp [lastKeyed, hl, hb, hmiss]

/-- C9: SaveClassification is an upsert. Over any sequence of saves whose
foreign keys resolve, a key that was saved at least once ends with exactly
one stored row, carrying the most recent input for that key and the most
recent timestamp; and saving the same key and input twice collapses to the
second save alone (idempotence up to the timestamp). -/
theorem save_classification_upsert (db : DBState) (ops : List SaveOp)
    (cid ti uid : Int) (op : SaveOp) (d : DBState) (o : SaveOp) (t2 : Nat)
    (hfk : ∀ o2 ∈ ops, fkOK db o2)
    (hwf : (keyFilter cid ti uid db).length ≤ 1)
    (hlast : lastKeyed cid ti uid ops = some op) :
    keyFilter cid ti uid (applySaves db ops)
      = [mkClassification cid ti uid op.input op.time] ∧
    applySave (applySave d o) { o with time := t2 } = applySave d { o with time := t2 } := by
  constructor
  · have h := applySaves_keyFilter cid ti uid ops db hfk hwf
    rw [hlast] at h
    exact h
  · exact applySave_absorb d o t2

/-- Second classification input fixture. -/
def wInput2 : ClassificationInput :=
  { wInput with normalTransit := false, markedTDV := true, notes := "tdv" }

/-- Save fixtures: two saves of the same key with different inputs and
timestamps. -/
def wOp1 : SaveOp := { curveId := 1, transitIndex := 0, userId := 7, input := wInput, time := 5 }

/-- Second save fixture, same key as wOp1. -/
def wOp2 : SaveOp := { curveId := 1, transitIndex := 0, userId := 7, input := wInput2, time := 9 }

/-- Witness for C9 at the concrete fixtures. -/
theorem save_classification_upsert_witness :
    keyFilter 1 0 7 (applySaves wDB [wOp1, wOp2])
      = [mkClassification 1 0 7 wOp2.input wOp2.time] ∧
    applySave (applySave wDB wOp1) { wOp1 with time := 9 }
      = applySave wDB { wOp1 with time := 9 } :=
  save_classification_upsert wDB [wOp1, wOp2] 1 0 7 wOp2 wDB wOp1 9
    (by decide) (by decide) (by decide)

/-! ## Infrastructure for the transit-load theorems (C1, C8, C10) -/

/-- The stored row under a (curve_id, transit_index) key, if any. -/
def findTransitKey (ts : List Transit) (cid idx : Int) : Option Transit :=
  ts.find? (fun t => t.curveId == cid && t.transitIndex == idx)

/-- Whether a CSV record is long enough, resolves to the given curve id, and
carries the given transit index. -/
def keyRow (cmap : List (String × Int)) (cid idx : Int) (r : Record) : Bool :=
  decide (14 ≤ r.length) && (cmap.lookup (cell r 0) == some cid)
    && (parseReqInt (cell r 1) == idx)

/-- No two stored transits share the (curve_id, transit_index) key. -/
def transitKeysUnique (ts : List Transit) : Prop :=
  ts.Pairwise (fun a b => sameTransitKey a b = false)

/-- The (filename, id) pairs of the Curves table, in table order. -/
def curveKeys (curves : List Curve) : List (String × Int) :=
  curves.map (fun c => (c.filename, c.id))

/-- Whether a stored transit is exactly the parse of the given CSV record
under the filename map. -/
def fromRecord (cmap : List (String × Int)) (t : Transit) (r : Record) : Bool :=
  decide (14 ≤ r.length) &&
    match cmap.lookup (cell r 0) with
    | some cid => t == parseTransitRecord cid r
    | none => false

/-- Number of stored transits of one curve. -/
def transitTally (ts : List Transit) (i : Int) : Nat :=
  (ts.filter (fun t => t.curveId == i)).length

/-- The fold of the map-building loop prepends the reversed key list. -/
theorem curveMap_foldl (curves : List Curve) :
    ∀ acc : List (String × Int),
      curves.foldl (fun m c => (c.filename, c.id) :: m) acc
        = (curveKeys curves).reverse ++ acc := by
  induction curves with
  | nil => intro acc; simp [curveKeys]
  | cons c curves ih =>
      intro acc
      rw [List.foldl_cons, ih ((c.filename, c.id) :: acc)]
      simp [curveKeys]

/-- The Go filename map is the reversed key list of the table. -/
theorem curveMap_eq (curves : List Curve) :
    curveMap curves = (curveKeys curves).reverse := by
  rw [curveMap, curveMap_foldl curves [], List.append_nil]

/-- Maps that keep filename and id keep the key list. -/
theorem curveKeys_map (f : Curve → Curve)
    (hf : ∀ c, (f c).filename = c.filename ∧ (f c).id = c.id) :
    ∀ curves : List Curve, curveKeys (curves.map f) = curveKeys curves := by
  intro curves
  induction curves with
  | nil => rfl
  | cons c curves ih =>
      simp only [curveKeys, List.map_cons] at ih ⊢
      rw [(hf c).1, (hf c).2, ih]

/-- A successful lookup pair is a member of the association list. -/
theorem lookup_mem (k : String) (v : Int) :
    ∀ l : List (String × Int), l.lookup k = some v → (k, v) ∈ l := by
  intro l
  induction l with
  | nil => intro h; cases h
  | cons p l ih =>
      intro h
      rw [List.lookup_cons] at h
      by_cases hk : (k == p.1) = true
      · rw [hk] at h
        cases h
        have : k = p.1 := by simpa using hk
        subst this
        exact List.mem_cons_self _ _
      · rw [Bool.eq_false_iff.mpr hk] at h
        exact List.mem_cons_of_mem _ (ih h)

/-- In a list with pairwise distinct keys, a key determines its value. -/
theorem mem_keys_unique (k : String) (v v2 : Int) :
    ∀ l : List (String × Int), l.Pairwise (fun a b => a.1 ≠ b.1) →
      (k, v) ∈ l → (k, v2) ∈ l → v = v2 := by
  intro l
  induction l with
  | nil => intro _ h; cases h
  | cons p l ih =>
      intro hp h1 h2
      rcases List.mem_cons.mp h1 with e1 | m1
      · rcases List.mem_cons.mp h2 with e2 | m2
        · rw [← e1] at e2
          exact congrArg Prod.snd e2.symm
        · exfalso
          have hk := (List.pairwise_cons.mp hp).1 (k, v2) m2
          rw [← e1] at hk
          exact hk rfl
      · rcases List.mem_cons.mp h2 with e2 | m2
        · exfalso
          have hk := (List.pairwise_cons.mp hp).1 (k, v) m1
          rw [← e2] at hk
          exact hk rfl
        · exact ih (List.pairwise_cons.mp hp).2 m1 m2

/-- Under the schema UNIQUE constraints, the joined lookup of GetTransit
coincides with the direct key lookup through the filename map. -/
theorem getTransit_eq_findKey (db : DBState) (fn : String) (idx cid : Int)
    (hdist : (curveKeys db.curves).Pairwise (fun a b => a.1 ≠ b.1))
    (hcid : (curveMap db.curves).lookup fn = some cid) :
    getTransit db fn idx = findTransitKey db.transits cid idx := by
  have hmemcid : (fn, cid) ∈ curveKeys db.curves := by
    have h1 := lookup_mem fn cid (curveMap db.curves) hcid
    rw [curveMap_eq] at h1
    exact List.mem_reverse.mp h1
  have hpt : ∀ t : Transit,
      (db.curves.any (fun c => c.id == t.curveId && c.filename == fn)) = (t.curveId == cid) := by
    intro t
    by_cases h : t.curveId = cid
    · rw [h, beq_self_eq_true]
      rcases List.mem_map.mp hmemcid with ⟨c, hcm, hce⟩
      refine List.any_eq_true.mpr ⟨c, hcm, ?_⟩
      have h1 : c.filename = fn := congrArg Prod.fst hce
      have h2 : c.id = cid := congrArg Prod.snd hce
      simp [h1, h2]
    · have hrhs : (t.curveId == cid) = false := by
        exact beq_eq_false_iff_ne.mpr h
      rw [hrhs]
      by_contra hany
      rw [Bool.not_eq_false, List.any_eq_true] at hany
      rcases hany with ⟨c, hcm, hc⟩
      rw [Bool.and_eq_true, beq_iff_eq, beq_iff_eq] at hc
      have hmemc : (fn, c.id) ∈ curveKeys db.curves :=
        List.mem_map.mpr ⟨c, hcm, by rw [hc.2]⟩
      exact h (hc.1 ▸ mem_keys_unique fn c.id cid _ hdist hmemc hmemcid)
  rw [getTransit, findTransitKey]
  congr 1
  funext t
  rw [hpt t, Bool.and_comm]

/-- One loop step either leaves the state unchanged or appends the parsed row
of a resolved filename and bumps its counter. -/
theorem processTransitRecord_split (cmap : List (String × Int)) (st : LoadState) (r : Record) :
    processTransitRecord cmap st r = st ∨
    ∃ cid, ¬ r.length < 14 ∧ cmap.lookup (cell r 0) = some cid ∧
      (st.transits.any (fun u => sameTransitKey u (parseTransitRecord cid r))) = false ∧
      processTransitRecord cmap st r =
        { transits := st.transits ++ [parseTransitRecord cid r]
          counts := fun i => if i = cid then st.counts i + 1 else st.counts i } := by
  by_cases hl : r.length < 14
  · left
    simp [processTransitRecord, hl]
  · cases hlk : cmap.lookup (cell r 0) with
    | none =>
        left
        simp [processTransitRecord, hl, hlk]
    | some cid =>
        by_cases hins : (st.transits.any
            (fun u => sameTransitKey u (parseTransitRecord cid r))) = true
        · left
          simp [processTransitRecord, hl, hlk, insertTransit, hins]
        · right
          refine ⟨cid, hl, rfl, by simpa using hins, ?_⟩
          simp [processTransitRecord, hl, hlk, insertTransit, hins]

/-- One loop step preserves key uniqueness of the stored transits. -/
theorem processTransitRecord_unique (cmap : List (String × Int)) (st : LoadState)
    (r : Record) (h : transitKeysUnique st.transits) :
    transitKeysUnique (processTransitRecord cmap st r).transits := by
  rcases processTransitRecord_split cmap st r with he | ⟨cid, hl, hlk, hnone, he⟩
  · rw [he]
    exact h
  · rw [he]
    show (st.transits ++ [parseTransitRecord cid r]).Pairwise _
    rw [List.pairwise_append]
    refine ⟨h, by simp, ?_⟩
    intro a ha b hb
    have hb1 : b = parseTransitRecord cid r := by simpa using hb
    subst hb1
    exact Bool.eq_false_iff.mpr (List.any_eq_false.mp hnone a ha)

/-- The whole loop preserves key uniqueness. -/
theorem foldl_transits_unique (cmap : List (String × Int)) :
    ∀ (records : List Record) (st : LoadState),
      transitKeysUnique st.transits →
      transitKeysUnique ((records.foldl (processTransitRecord cmap) st).transits) := by
  intro records
  induction records with
  | nil => intro st h; exact h
  | cons r records ih =>
      intro st h
      rw [List.foldl_cons]
      exact ih _ (processTransitRecord_unique cmap st r h)

/-- A row already stored under a key survives every later loop step. -/
theorem foldl_findKey_some (cmap : List (String × Int)) (cid idx : Int) (t : Transit) :
    ∀ (records : List Record) (st : LoadState),
      findTransitKey st.transits cid idx = some t →
      findTransitKey ((records.foldl (processTransitRecord cmap) st).transits) cid idx
        = some t := by
  intro records
  induction records with
  | nil => intro st h; exact h
  | cons r records ih =>
      intro st h
      rw [List.foldl_cons]
      refine ih _ ?_
      rcases processTransitRecord_split cmap st r with he | ⟨cid2, _, _, _, he⟩
      · rw [he]
        exact h
      · rw [he]
        show findTransitKey (st.transits ++ [parseTransitRecord cid2 r]) cid idx = some t
        rw [findTransitKey, List.find?_append]
        rw [findTransitKey] at h
        rw [h]
        rfl

/-- Starting from a state without the key, the loop stores under the key
exactly the parse of the first CSV record carrying that key. -/
theorem foldl_findKey (cmap : List (String × Int)) (cid idx : Int) :
    ∀ (records : List Record) (st : LoadState),
      findTransitKey st.transits cid idx = none →
      findTransitKey ((records.foldl (processTransitRecord cmap) st).transits) cid idx
        = (records.filter (keyRow cmap cid idx)).head?.map
            (fun r => parseTransitRecord cid r) := by
  intro records
  induction records with
  | nil =>
      intro st h
      rw [List.foldl_nil, h]
      rfl
  | cons r records ih =>
      intro st h
      rw [List.foldl_cons]
      by_cases hrow : keyRow cmap cid idx r = true
      · rw [List.filter_cons_of_pos hrow, List.head?_cons, Option.map_some']
        have hr3 := hrow
        rw [keyRow, Bool.and_eq_true, Bool.and_eq_true] at hr3
        obtain ⟨⟨hlen, hlk⟩, hidxb⟩ := hr3
        have hlen2 : ¬ r.length < 14 := by
          have := of_decide_eq_true hlen
          omega
        have hlk2 : cmap.lookup (cell r 0) = some cid := by simpa using hlk
        have hidx2 : parseReqInt (cell r 1) = idx := by simpa using hidxb
        have hnone : (st.transits.any
            (fun u => sameTransitKey u (parseTransitRecord cid r))) = false := by
          by_contra hc
          rw [Bool.not_eq_false, List.any_eq_true] at hc
          rcases hc with ⟨u, hu, hukey⟩
          rw [findTransitKey, List.find?_eq_none] at h
          refine h u hu ?_
          rw [sameTransitKey, Bool.and_eq_true] at hukey
          rw [Bool.and_eq_true]
          refine ⟨hukey.1, ?_⟩
          have h2 := hukey.2
          rw [beq_iff_eq] at h2 ⊢
          rw [h2]
          exact hidx2
        have hstep : processTransitRecord cmap st r =
            { transits := st.transits ++ [parseTransitRecord cid r]
              counts := fun i => if i = cid then st.counts i + 1 else st.counts i } := by
          simp [processTransitRecord, hlen2, hlk2, insertTransit, hnone]
        rw [hstep]
        refine foldl_findKey_some cmap cid idx _ records _ ?_
        show findTransitKey (st.transits ++ [parseTransitRecord cid r]) cid idx = _
        rw [findTransitKey, List.find?_append]
        rw [findTransitKey] at h
        rw [h]
        have hp : ((parseTransitRecord cid r).curveId == cid
            && (parseTransitRecord cid r).transitIndex == idx) = true := by
          simp [parseTransitRecord, hidx2]
        have hfind1 : List.find? (fun t => t.curveId == cid && t.transitIndex == idx)
            [parseTransitRecord cid r] = some (parseTransitRecord cid r) :=
          List.find?_cons_of_pos _ hp
        rw [hfind1]
        rfl
      · rw [List.filter_cons_of_neg hrow]
        have hnone2 : findTransitKey ((processTransitRecord cmap st r).transits) cid idx
            = none := by
          rcases processTransitRecord_split cmap st r with he | ⟨cid2, hl, hlk, _, he⟩
          · rw [he]
            exact h
          · rw [he]
            show findTransitKey (st.transits ++ [parseTransitRecord cid2 r]) cid idx = none
            rw [findTransitKey, List.find?_append]
            rw [findTransitKey] at h
            rw [h]
            have hp : ((parseTransitRecord cid2 r).curveId == cid
                && (parseTransitRecord cid2 r).transitIndex == idx) = false := by
              by_contra hc
              rw [Bool.not_eq_false, Bool.and_eq_true, beq_iff_eq, beq_iff_eq] at hc
              have hc1 : cid2 = cid := hc.1
              have hc2 : parseReqInt (cell r 1) = idx := hc.2
              refine hrow ?_
              rw [keyRow, Bool.and_eq_true, Bool.and_eq_true]
              refine ⟨⟨decide_eq_true (by omega), ?_⟩, ?_⟩
              · rw [hlk, hc1]
                simp
              · rw [beq_iff_eq]
                exact hc2
            have hfind0 : List.find? (fun t => t.curveId == cid && t.transitIndex == idx)
                [parseTransitRecord cid2 r] = none := by
              rw [List.find?_cons_of_neg _ (by rw [hp]; exact Bool.false_ne_true),
                List.find?_nil]
            rw [hfind0]
            rfl
        rw [ih _ hnone2]

/-- The counter map tracks the per-curve tally of stored transits. -/
theorem foldl_tally (cmap : List (String × Int)) :
    ∀ (records : List Record) (st : LoadState),
      (∀ i, transitTally st.transits i = st.counts i) →
      ∀ i, transitTally ((records.foldl (processTransitRecord cmap) st).transits) i
        = ((records.foldl (processTransitRecord cmap) st).counts i) := by
  intro records
  induction records with
  | nil => intro st h; exact h
  | cons r records ih =>
      intro st h
      rw [List.foldl_cons]
      refine ih _ ?_
      intro i
      rcases processTransitRecord_split cmap st r with he | ⟨cid, _, _, _, he⟩
      · rw [he]
        exact h i
      · rw [he]
        show transitTally (st.transits ++ [parseTransitRecord cid r]) i
          = if i = cid then st.counts i + 1 else st.counts i
        rw [transitTally, List.filter_append, List.length_append]
        have hbase : (st.transits.filter (fun t => t.curveId == i)).length = st.counts i :=
          h i
        by_cases hic : i = cid
        · subst hic
          rw [if_pos rfl, hbase]
          have hone : (([parseTransitRecord i r] : List Transit).filter
              (fun t => t.curveId == i)).length = 1 := by
            simp [parseTransitRecord]
          rw [hone]
        · rw [if_neg hic, hbase]
          have hzero : (([parseTransitRecord cid r] : List Transit).filter
              (fun t => t.curveId == i)).length = 0 := by
            have : ((parseTransitRecord cid r).curveId == i) = false := by
              simp only [parseTransitRecord]
              exact beq_eq_false_iff_ne.mpr (fun hc => hic hc.symm)
            simp [this]
          rw [hzero]
          omega

/-- Every transit the loop stores is the verbatim parse of some record of the
input, resolved through the filename map. -/
theorem foldl_provenance (cmap : List (String × Int)) :
    ∀ (records : List Record) (st : LoadState) (t : Transit),
      t ∈ ((records.foldl (processTransitRecord cmap) st).transits) →
      t ∈ st.transits ∨ records.any (fromRecord cmap t) = true := by
  intro records
  induction records with
  | nil => intro st t h; exact Or.inl h
  | cons r records ih =>
      intro st t h
      rw [List.foldl_cons] at h
      rcases ih _ t h with hmem | hany
      · rcases processTransitRecord_split cmap st r with he | ⟨cid, hl, hlk, _, he⟩
        · rw [he] at hmem
          exact Or.inl hmem
        · rw [he] at hmem
          rcases List.mem_append.mp hmem with hl2 | hr2
          · exact Or.inl hl2
          · right
            have ht : t = parseTransitRecord cid r := by simpa using hr2
            rw [List.any_cons]
            refine Bool.or_eq_true_iff.mpr (Or.inl ?_)
            rw [fromRecord, hlk]
            rw [Bool.and_eq_true]
            exact ⟨decide_eq_true (by omega), by rw [ht]; simp⟩
      · right
        rw [List.any_cons]
        exact Bool.or_eq_true_iff.mpr (Or.inr hany)

/-- Resetting found_transits keeps the key list. -/
theorem curveKeys_resetFound (curves : List Curve) :
    curveKeys (resetFound curves) = curveKeys curves := by
  rw [resetFound]
  exact curveKeys_map (fun c => { c with foundTransits := 0 }) (fun c => ⟨rfl, rfl⟩) curves

/-- Writing the counters keeps the key list. -/
theorem curveKeys_applyCounts (counts : Int → Nat) (curves : List Curve) :
    curveKeys (applyCounts counts curves) = curveKeys curves := by
  rw [applyCounts]
  refine curveKeys_map _ (fun c => ?_) curves
  by_cases hc : counts c.id ≠ 0 <;> simp [hc]

/-- Resetting found_transits keeps the filename map. -/
theorem curveMap_resetFound (curves : List Curve) :
    curveMap (resetFound curves) = curveMap curves := by
  rw [curveMap_eq, curveMap_eq, curveKeys_resetFound]

/-! ## C10: LoadTransitsFromCSV re-establishes the found_transits invariant -/

/-- C10: on a CSV with at least one data record the load succeeds, and
afterwards every curve's found_transits equals the number of transit rows
stored for it — curves that received no row keep 0; records shorter than 14
fields and records whose filename resolves to no curve are skipped without
aborting the load. -/
theorem found_transits_invariant (db : DBState) (records : List Record)
    (cmap : List (String × Int)) (st : LoadState) (s q : Record)
    (h2 : 2 ≤ records.length) (hs : s.length < 14) (hq14 : 14 ≤ q.length)
    (hq : cmap.lookup (cell q 0) = none) :
    (match loadTransitsFromCSV db records with
     | .ok db1 => db1.curves.all
         (fun c => c.foundTransits == (transitTally db1.transits c.id : Int))
     | .error _ => false) = true ∧
    processTransitRecord cmap st s = st ∧
    processTransitRecord cmap st q = st := by
  refine ⟨?_, ?_, ?_⟩
  · rw [loadTransitsFromCSV, if_neg (by omega)]
    show (applyCounts _ _).all _ = true
    rw [List.all_eq_true]
    intro c hc
    rw [applyCounts] at hc
    rcases List.mem_map.mp hc with ⟨c0, hc0, hce⟩
    have htally : ∀ i,
        transitTally (loadState (curveMap (resetFound db.curves)) (records.drop 1)).transits i
          = (loadState (curveMap (resetFound db.curves)) (records.drop 1)).counts i := by
      rw [loadState]
      exact foldl_tally _ _ _ (fun i => rfl)
    have hc0found : c0.foundTransits = 0 := by
      rcases List.mem_map.mp hc0 with ⟨c1, _, hc1e⟩
      rw [← hc1e]
    by_cases hz : (loadState (curveMap (resetFound db.curves)) (records.drop 1)).counts c0.id ≠ 0
    · rw [if_pos hz] at hce
      rw [← hce]
      show ((_ : Int) == _) = true
      rw [htally c0.id]
      exact beq_self_eq_true _
    · rw [if_neg hz] at hce
      rw [← hce]
      push_neg at hz
      show (c0.foundTransits == _) = true
      rw [htally c0.id, hz, hc0found]
      rfl
  · simp [processTransitRecord, hs]
  · simp [processTransitRecord, Nat.not_lt.mpr hq14, hq]

/-- Per-transit record fixture whose filename matches no curve. -/
def wBadRow : Record :=
  ["zzz.csv", "0", "1", "", "", "0", "0", "", "1", "", "89", "0", "0", "z.png"]

/-- Witness for C10 at the concrete fixtures. -/
theorem found_transits_invariant_witness :
    (match loadTransitsFromCSV wDB [wHeader, wRow0, wRow1, wBadRow] with
     | .ok db1 => db1.curves.all
         (fun c => c.foundTransits == (transitTally db1.transits c.id : Int))
     | .error _ => false) = true ∧
    processTransitRecord wMap wSt wShort = wSt ∧
    processTransitRecord wMap wSt wBadRow = wSt :=
  found_transits_invariant wDB [wHeader, wRow0, wRow1, wBadRow] wMap wSt wShort wBadRow
    (by decide) (by decide) (by decide) (by decide)

/-! ## C1: the (filename, transit_index) pair identifies one stored transit -/

/-- C1: after a re-import of a per-transit CSV in which exactly one data
record carries a given (filename, transit index) key, GetTransit at that key
returns precisely the numeric values parsed from that record; and the UNIQUE
(curve_id, transit_index) constraint holds of the stored rows: no two
transits of one curve share an index. -/
theorem getTransit_roundtrip_unique (db : DBState) (records : List Record)
    (db1 : DBState) (fn : String) (idx cid : Int) (r0 : Record)
    (hdist : (curveKeys db.curves).Pairwise (fun a b => a.1 ≠ b.1))
    (hload : loadTransitsFromCSV db records = .ok db1)
    (hcid : (curveMap db.curves).lookup fn = some cid)
    (huniq : (records.drop 1).filter (keyRow (curveMap db.curves) cid idx) = [r0]) :
    getTransit db1 fn idx = some (parseTransitRecord cid r0) ∧
    transitKeysUnique db1.transits := by
  rw [loadTransitsFromCSV] at hload
  by_cases hlen : records.length < 2
  · rw [if_pos hlen] at hload
    exact absurd hload (by simp)
  · rw [if_neg hlen, Except.ok.injEq] at hload
    subst hload
    have hckeys : curveKeys (applyCounts
        (loadState (curveMap (resetFound db.curves)) (records.drop 1)).counts
        (resetFound db.curves)) = curveKeys db.curves := by
      rw [curveKeys_applyCounts, curveKeys_resetFound]
    constructor
    · rw [getTransit_eq_findKey _ fn idx cid (by rw [show (DBState.curves { db with
          curves := applyCounts
            (loadState (curveMap (resetFound db.curves)) (records.drop 1)).counts
            (resetFound db.curves)
          transits := (loadState (curveMap (resetFound db.curves)) (records.drop 1)).transits })
            = applyCounts
            (loadState (curveMap (resetFound db.curves)) (records.drop 1)).counts
            (resetFound db.curves) from rfl, hckeys]; exact hdist)
        (by rw [show (DBState.curves { db with
          curves := applyCounts
            (loadState (curveMap (resetFound db.curves)) (records.drop 1)).counts
            (resetFound db.curves)
          transits := (loadState (curveMap (resetFound db.curves)) (records.drop 1)).transits })
            = applyCounts
            (loadState (curveMap (resetFound db.curves)) (records.drop 1)).counts
            (resetFound db.curves) from rfl, curveMap_eq, hckeys, ← curveMap_eq]; exact hcid)]
      show findTransitKey
        (loadState (curveMap (resetFound db.curves)) (records.drop 1)).transits cid idx = _
      rw [loadState]
      rw [foldl_findKey (curveMap (resetFound db.curves)) cid idx (records.drop 1)
        { transits := [], counts := fun _ => 0 } rfl]
      rw [curveMap_resetFound, huniq]
      rfl
    · show transitKeysUnique
        (loadState (curveMap (resetFound db.curves)) (records.drop 1)).transits
      rw [loadState]
      exact foldl_transits_unique _ _ _ List.Pairwise.nil

/-! ## C8: no re-derivation, static plots served unmodified -/

/-- C8: every transit row the load stores is the verbatim field-wise parse of
one of the CSV data records, resolved through the filename map — the backend
recomputes nothing, and the plot file column is carried as a verbatim
reference; the spec-modelled /plots static server returns the plot directory
contents unmodified. -/
theorem backend_no_rederivation (db : DBState) (records : List Record) (db1 : DBState)
    (plotsDir : String → Option (List Nat)) (name : String)
    (hload : loadTransitsFromCSV db records = .ok db1) :
    db1.transits.all
      (fun t => (records.drop 1).any (fromRecord (curveMap db.curves) t)) = true ∧
    servePlots plotsDir name = plotsDir name := by
  refine ⟨?_, rfl⟩
  rw [loadTransitsFromCSV] at hload
  by_cases hlen : records.length < 2
  · rw [if_pos hlen] at hload
    exact absurd hload (by simp)
  · rw [if_neg hlen, Except.ok.injEq] at hload
    subst hload
    rw [List.all_eq_true]
    intro t ht
    rw [loadState] at ht
    rcases foldl_provenance (curveMap (resetFound db.curves)) (records.drop 1)
        { transits := [], counts := fun _ => 0 } t ht with hmem | hany
    · cases hmem
    · rw [curveMap_resetFound] at hany
      exact hany

/-- Curve fixture with the found_transits count after the load. -/
def wCurveA2 : Curve := { wCurveA with foundTransits := 2 }

/-- Database fixture after loading wRow0 and wRow1 for curve a.csv. -/
def wDB1 : DBState :=
  { wDB with
    curves := [wCurveA2]
    transits := [parseTransitRecord 1 wRow0, parseTransitRecord 1 wRow1] }

/-- Witness for C1 at the concrete fixtures. -/
theorem getTransit_roundtrip_unique_witness :
    getTransit wDB1 "a.csv" 0 = some (parseTransitRecord 1 wRow0) ∧
    transitKeysUnique wDB1.transits :=
  getTransit_roundtrip_unique wDB [wHeader, wRow0, wRow1] wDB1 "a.csv" 0 1 wRow0
    (by decide) (by rfl) (by rfl) (by rfl)

/-- Plot directory fixture. -/
def wPlots : String → Option (List Nat) :=
  fun n => if n = "a_0.png" then some [137, 80, 78, 71] else none

/-- Witness for C8 at the concrete fixtures. -/
theorem backend_no_rederivation_witness :
    wDB1.transits.all
      (fun t => (([wHeader, wRow0, wRow1] : List Record).drop 1).any
        (fromRecord (curveMap wDB.curves) t)) = true ∧
    servePlots wPlots "a_0.png" = wPlots "a_0.png" :=
  backend_no_rederivation wDB [wHeader, wRow0, wRow1] wDB1 wPlots "a_0.png" (by rfl)

/-! ## C3: path index off by one against the timing enrichment -/

/-- C3: the classify handlers convert the path index i to the storage index
i − 1, while the timing enrichment reads the stored transit at the
unconverted i: a save at path index i persists a row under transit_index
i − 1 whose timing fields are those of the transit stored at index i, and a
get at the same path index returns exactly that row — save-then-get
round-trips, but the row under i − 1 carries transit i's timing, not that of
the transit whose stored index is i − 1. -/
theorem classification_handler_index_shift (db : DBState) (userID : Int)
    (fn idxStr : String) (i : Int) (input : ClassificationInput) (now : Nat)
    (curve : Curve) (t tprev : Transit) (db1 : DBState)
    (hidx : atoi idxStr = some i)
    (hcurve : getCurveByFilename db fn = some curve)
    (ht : getTransit db fn i = some t)
    (hfkc : db.curves.any (fun c => c.id == curve.id) = true)
    (hfku : db.users.any (fun u => u == userID) = true)
    (hwf : (keyFilter curve.id (i - 1) userID db).length ≤ 1)
    (hsave : saveClassificationHandler db userID fn idxStr input now = (.ok, db1))
    (hprev : getTransit db fn (i - 1) = some tprev)
    (hne : tprev.t0Expected ≠ t.t0Expected) :
    getClassificationModel db1 curve.id (i - 1) userID
      = some (mkClassification curve.id (i - 1) userID
          { input with
            tExpectedBJD := some t.t0Expected
            tObservedBJD := t.t0Fitted
            ttvMinutes := t.ttvMinutes } now) ∧
    getClassificationHandler db1 userID fn idxStr
      = (.ok, getClassificationModel db1 curve.id (i - 1) userID) ∧
    (getClassificationModel db1 curve.id (i - 1) userID).map
        (fun c => c.tExpectedBJD) ≠ some (some tprev.t0Expected) := by
  simp only [saveClassificationHandler, hidx, hcurve] at hsave
  have hinp : enrichInput db fn i input =
      { input with
        tExpectedBJD := some t.t0Expected
        tObservedBJD := t.t0Fitted
        ttvMinutes := t.ttvMinutes } := by
    rw [enrichInput, ht]
  cases hm : saveClassificationModel db curve.id (i - 1) userID
      (enrichInput db fn i input) now with
  | error e =>
      simp only [hm] at hsave
      exact absurd hsave (by simp)
  | ok db2 =>
      simp only [hm] at hsave
      have hdb : db2 = db1 := by
        have h2 := congrArg Prod.snd hsave
        simpa using h2
      subst hdb
      have happ : applySave db
          { curveId := curve.id, transitIndex := i - 1, userId := userID,
            input := enrichInput db fn i input, time := now } = db2 := by
        rw [applySave]
        rw [show saveClassificationModel db curve.id (i - 1) userID
            (enrichInput db fn i input) now = .ok db2 from hm]
      have hhit := applySave_keyFilter_hit db
          { curveId := curve.id, transitIndex := i - 1, userId := userID,
            input := enrichInput db fn i input, time := now }
          curve.id (i - 1) userID ⟨hfkc, hfku⟩ (by simp [opHasKey]) hwf
      rw [happ] at hhit
      have hget : getClassificationModel db2 curve.id (i - 1) userID
          = some (mkClassification curve.id (i - 1) userID
              (enrichInput db fn i input) now) := by
        rw [getClassificationModel, find?_eq_head?_filter]
        have hkf : db2.classifications.filter (classKeyIs curve.id (i - 1) userID)
            = keyFilter curve.id (i - 1) userID db2 := rfl
        rw [hkf, hhit]
        rfl
      refine ⟨?_, ?_, ?_⟩
      · rw [hget, hinp]
      · have hcurves : db2.curves = db.curves := by
          rw [← happ]
          exact (applySave_tables db _).1
        rw [getClassificationHandler, hidx]
        have hc1 : getCurveByFilename db2 fn = some curve := by
          rw [getCurveByFilename, hcurves]
          exact hcurve
        rw [hc1]
      · rw [hget, hinp]
        intro hcontra
        simp only [Option.map_some', mkClassification, Option.some.injEq] at hcontra
        exact hne (by rw [hcontra])

/-- Database fixture after the classify save at path index 1. -/
def wDB4 : DBState :=
  { wDB1 with
    classifications :=
      [mkClassification wCurveA2.id 0 7 (enrichInput wDB1 "a.csv" 1 wInput) 3] }

/-- Witness for C3 at the concrete fixtures. -/
theorem classification_handler_index_shift_witness :
    getClassificationModel wDB4 wCurveA2.id (1 - 1) 7
      = some (mkClassification wCurveA2.id (1 - 1) 7
          { wInput with
            tExpectedBJD := some (parseTransitRecord 1 wRow1).t0Expected
            tObservedBJD := (parseTransitRecord 1 wRow1).t0Fitted
            ttvMinutes := (parseTransitRecord 1 wRow1).ttvMinutes } 3) ∧
    getClassificationHandler wDB4 7 "a.csv" "1"
      = (.ok, getClassificationModel wDB4 wCurveA2.id (1 - 1) 7) ∧
    (getClassificationModel wDB4 wCurveA2.id (1 - 1) 7).map
        (fun c => c.tExpectedBJD) ≠ some (some (parseTransitRecord 1 wRow0).t0Expected) :=
  classification_handler_index_shift wDB1 7 "a.csv" "1" 1 wInput 3 wCurveA2
    (parseTransitRecord 1 wRow1) (parseTransitRecord 1 wRow0) wDB4
    rfl rfl rfl (by decide) (by decide) (by decide) rfl rfl
    (by with_unfolding_all decide)

end DipsOjos
